import Mathlib

/-!
Verification of the ttie engine (a minimal feed-forward automatic-differentiation
library) against its specification.

Shallow embedding conventions:
* C++ `float` is modelled by `ℚ` (exact arithmetic; the spec states all layer
  contracts as exact formulas).
* `std::sqrt` is not rational, so every definition that needs it takes an
  explicit `sq : ℚ → ℚ` argument standing for the square-root routine.
* Flat `std::vector<float>` buffers are `List ℚ`; an in-bounds read
  `v[i]` is `l.getD i 0` (all reads performed by the source on the inputs we
  reason about are in bounds; out-of-bounds reads are undefined behaviour in the
  source and are not modelled).
* Fallible code (C++ `throw`) returns `Except TtieError`.
-/

namespace TTIE

/-- Error taxonomy: one constructor per distinct throw site / spec category. -/
inductive TtieError where
  /-- `std::invalid_argument("Invalid tensor shape")` from `Tensor::size`. -/
  | invalidShape
  /-- `std::invalid_argument` for rank / channel-dimension mismatches. -/
  | shapeMismatch
  /-- `std::invalid_argument` from `mse_loss` on differing element counts. -/
  | sizeMismatch
  /-- `std::runtime_error("Forward pass must be called before backward pass")`. -/
  | illegalState
  /-- BatchNorm backward: upstream tensor's grad buffer is empty. -/
  | gradEmpty
  /-- BatchNorm backward: no cached input (forward was never called). -/
  | forwardNotCalled
  /-- BatchNorm backward: cached input size disagrees with the gradient shape. -/
  | cachedSizeMismatch
  /-- BatchNorm2d/3d forward: `input.data.size() != input.size()`. -/
  | dataSizeMismatch
  /-- BatchNorm2d/3d backward: gamma/beta grad buffers are not `num_features` long. -/
  | paramGradSize
  /-- Model streaming: an activation slot is missing (out-of-bounds access in the
  source; cannot occur once the cache has been resized consistently). -/
  | missingSlot
  /-- Model::forward on zero layers: `activations.resize(SIZE_MAX)` cannot be
  satisfied (unsigned underflow of `layers.size() - 1`). -/
  | activationAlloc
  deriving DecidableEq

/-- `struct Tensor`: shape, flat data buffer, flat grad buffer. -/
structure Tensor where
  shape : List Nat
  data : List ℚ
  grad : List ℚ
  deriving DecidableEq

/-- `Tensor::validate_shape`: false iff the shape is empty or has a zero dim. -/
def Tensor.validate_shape (t : Tensor) : Bool :=
  ¬ (t.shape.isEmpty || t.shape.any (· == 0))

/-- Product of the dimensions, as computed by the loop in `Tensor::size`
(`total = 1; for dim: total *= dim`). -/
def prodShape (s : List Nat) : Nat := s.foldl (· * ·) 1

/-- `Tensor::size`: throws `InvalidShape` when `validate_shape` fails. -/
def Tensor.size (t : Tensor) : Except TtieError Nat :=
  if ¬ t.validate_shape then .error .invalidShape else .ok (prodShape t.shape)

/-- `std::vector::resize` semantics on a `List ℚ` buffer: keep the first `n`
elements, pad with value-initialised `0.0f` if the buffer grows. -/
def resizeList (l : List ℚ) (n : Nat) : List ℚ :=
  l.take n ++ List.replicate (n - l.length) 0

/-- `Tensor::zero_grad`: fill the grad buffer with zeros (length unchanged). -/
def Tensor.zero_grad (t : Tensor) : Tensor :=
  { t with grad := List.replicate t.grad.length 0 }

/- ### Generic helper lemmas about the buffer primitives -/

theorem foldl_add_eq_sum (g : Nat → ℚ) (a : ℚ) (n : Nat) :
    (List.range n).foldl (fun x k => x + g k) a = a + ∑ k ∈ Finset.range n, g k := by
  induction n with
  | zero => simp
  | succ m ih =>
      rw [List.range_succ, List.foldl_append, ih, Finset.sum_range_succ]
      simp [add_assoc]

theorem getD_map_range (f : Nat → ℚ) (n i : Nat) (h : i < n) :
    ((List.range n).map f).getD i 0 = f i := by
  rw [List.getD_eq_getElem?_getD, List.getElem?_map, List.getElem?_range h]
  rfl

theorem getD_resizeList (l : List ℚ) (n i : Nat) (h : i < n) :
    (resizeList l n).getD i 0 = l.getD i 0 := by
  unfold resizeList
  rcases lt_or_le i l.length with hl | hl
  · rw [List.getD_eq_getElem?_getD, List.getElem?_append_left, List.getElem?_take]
    · simp [h, List.getD_eq_getElem?_getD, List.getElem?_eq_getElem hl]
    · simpa [List.length_take] using ⟨h, hl⟩
  · have hln : l.length ≤ n := Nat.le_of_lt (Nat.lt_of_le_of_lt hl h)
    rw [List.take_of_length_le hln]
    rw [List.getD_eq_getElem?_getD, List.getElem?_append_right hl,
      List.getElem?_replicate]
    have hi : i - l.length < n - l.length := by omega
    simp [hi, List.getD_eq_getElem?_getD, List.getElem?_eq_none hl]

theorem length_resizeList (l : List ℚ) (n : Nat) : (resizeList l n).length = n := by
  unfold resizeList
  simp [List.length_take]
  omega

theorem idx_decode (W b j : Nat) (hj : j < W) :
    (b * W + j) / W = b ∧ (b * W + j) % W = j := by
  have hW : 0 < W := Nat.lt_of_le_of_lt (Nat.zero_le j) hj
  constructor
  · rw [Nat.mul_comm b W, Nat.mul_add_div hW, Nat.div_eq_of_lt hj, Nat.add_zero]
  · rw [Nat.mul_comm b W, Nat.mul_add_mod, Nat.mod_eq_of_lt hj]

theorem idx_lt (B W b j : Nat) (hb : b < B) (hj : j < W) : b * W + j < B * W := by
  have h1 : b * W + j < (b + 1) * W := by
    have : (b + 1) * W = b * W + W := by ring
    omega
  have h2 : (b + 1) * W ≤ B * W := Nat.mul_le_mul_right W hb
  omega

theorem prodShape_pair (a b : Nat) : prodShape [a, b] = a * b := by
  simp [prodShape]

theorem prodShape_single (a : Nat) : prodShape [a] = a := by
  simp [prodShape]

/- ## Linear layer (`struct Linear`) -/

/-- `struct Linear`: owned `weight` (shape `[in_features, out_features]`) and
`bias` (shape `[out_features]`).  The constructor's random initialisation is
abstracted: a layer value carries whatever the constructor drew. -/
structure LinearLayer where
  weight : Tensor
  bias : Tensor
  deriving DecidableEq

/-- `Linear::forward`.  `in_features` / `out_features` are read from
`weight.shape` and the batch size from `input.shape[0]`.  The output tensor is
reshaped to `[batch, out_features]`, resized, and every cell `(i, j)` is
written by the accumulation `output[i*out+j] = bias[j]` followed by
`+= input[i*in+k] * weight[k*out+j]` over `k`; the map below enumerates the
same cells through their flat index.  `output.resize()` throws `InvalidShape`
when the requested shape has a zero dimension (reading `input.shape[0]` of an
empty shape is undefined behaviour in the source and is mapped to the same
failure).  The output slot's grad buffer is untouched. -/
def Linear.forward (l : LinearLayer) (input output : Tensor) :
    Except TtieError Tensor :=
  if input.shape.getD 0 0 = 0 ∨ l.weight.shape.getD 1 0 = 0 then .error .invalidShape
  else
    .ok { shape := [input.shape.getD 0 0, l.weight.shape.getD 1 0],
          data := (List.range (input.shape.getD 0 0 * l.weight.shape.getD 1 0)).map
            (fun idx =>
              (List.range (l.weight.shape.getD 0 0)).foldl
                (fun acc k =>
                  acc + input.data.getD ((idx / l.weight.shape.getD 1 0) *
                      l.weight.shape.getD 0 0 + k) 0 *
                    l.weight.data.getD (k * l.weight.shape.getD 1 0 +
                      idx % l.weight.shape.getD 1 0) 0)
                (l.bias.data.getD (idx % l.weight.shape.getD 1 0) 0)),
          grad := output.grad }

/-- `Linear::backward`.  Sizes come from `weight.shape` and the batch size from
the upstream tensor's shape.  `input.resize_grad()` / `weight.resize_grad()` /
`bias.resize_grad()` throw `InvalidShape` on an invalid shape (checked in call
order).  The resized `input.grad` is then overwritten cell by cell (`= 0`
followed by `+=` over `k`), while each `weight.grad` / `bias.grad` cell starts
from its resized previous content and accumulates `+=` over the batch; the
source's loop nest touches each cell independently, so the maps below list the
per-cell accumulation in the same (ascending) order. -/
def Linear.backward (l : LinearLayer) (output input : Tensor) :
    Except TtieError (Tensor × LinearLayer) :=
  if ¬ input.validate_shape then .error .invalidShape
  else if ¬ l.weight.validate_shape then .error .invalidShape
  else if ¬ l.bias.validate_shape then .error .invalidShape
  else
    .ok
      ({ input with
          grad := (List.range (prodShape input.shape)).map (fun idx =>
            if idx / l.weight.shape.getD 0 0 < output.shape.getD 0 0 then
              (List.range (l.weight.shape.getD 1 0)).foldl
                (fun acc k =>
                  acc + output.grad.getD ((idx / l.weight.shape.getD 0 0) *
                      l.weight.shape.getD 1 0 + k) 0 *
                    l.weight.data.getD ((idx % l.weight.shape.getD 0 0) *
                      l.weight.shape.getD 1 0 + k) 0) 0
            else (resizeList input.grad (prodShape input.shape)).getD idx 0) },
       { l with
          weight := { l.weight with
            grad := (List.range (prodShape l.weight.shape)).map (fun idx =>
              if idx / l.weight.shape.getD 1 0 < l.weight.shape.getD 0 0 then
                (List.range (output.shape.getD 0 0)).foldl
                  (fun acc i =>
                    acc + output.grad.getD (i * l.weight.shape.getD 1 0 +
                        idx % l.weight.shape.getD 1 0) 0 *
                      input.data.getD (i * l.weight.shape.getD 0 0 +
                        idx / l.weight.shape.getD 1 0) 0)
                  ((resizeList l.weight.grad (prodShape l.weight.shape)).getD idx 0)
              else (resizeList l.weight.grad (prodShape l.weight.shape)).getD idx 0) },
          bias := { l.bias with
            grad := (List.range (prodShape l.bias.shape)).map (fun idx =>
              if idx < l.weight.shape.getD 1 0 then
                (List.range (output.shape.getD 0 0)).foldl
                  (fun acc i =>
                    acc + output.grad.getD (i * l.weight.shape.getD 1 0 + idx) 0)
                  ((resizeList l.bias.grad (prodShape l.bias.shape)).getD idx 0)
              else (resizeList l.bias.grad (prodShape l.bias.shape)).getD idx 0) } })

/-- The spec's fixed reference weights for `Linear(3, 2)`. -/
def linRef : LinearLayer :=
  ⟨⟨[3, 2], [0.1, 0.2, 0.3, 0.4, 0.5, 0.6], []⟩, ⟨[2], [0.1, 0.2], []⟩⟩

/-- The spec's reference input `[[0.1,0.2,0.3],[0.4,0.5,0.6]]`. -/
def linRefInput : Tensor := ⟨[2, 3], [0.1, 0.2, 0.3, 0.4, 0.5, 0.6], []⟩

/-- The spec's expected reference output `[[0.32,0.48],[0.59,0.84]]`. -/
def linRefOutput : Tensor := ⟨[2, 2], [0.32, 0.48, 0.59, 0.84], []⟩

/-- Claim C1: `Linear::forward` maps an input of shape `[batch, in_features]`
with populated data to an output of shape `[batch, out_features]` with
`output[b,j] = bias[j] + Σ_k input[b,k]·weight[k,j]`; in particular, for the
spec's fixed reference weights, bias and input, the output is
`[[0.32, 0.48], [0.59, 0.84]]`. -/
theorem linear_forward_matmul :
    (∀ (l : LinearLayer) (input output : Tensor) (batch inF outF : Nat),
      l.weight.shape = [inF, outF] →
      input.shape = [batch, inF] →
      input.data.length = batch * inF →
      0 < batch → 0 < outF →
      ∃ out, Linear.forward l input output = .ok out ∧
        out.shape = [batch, outF] ∧ out.data.length = batch * outF ∧
        ∀ b < batch, ∀ j < outF,
          out.data.getD (b * outF + j) 0 =
            l.bias.data.getD j 0 +
              ∑ k ∈ Finset.range inF,
                input.data.getD (b * inF + k) 0 *
                  l.weight.data.getD (k * outF + j) 0) ∧
    Linear.forward linRef linRefInput ⟨[], [], []⟩ = .ok linRefOutput := by
  constructor
  · intro l input output batch inF outF hw hin hlen hb ho
    have hcond : ¬ (input.shape.getD 0 0 = 0 ∨ l.weight.shape.getD 1 0 = 0) := by
      rw [hw, hin]
      simp only [List.getD_cons_zero, List.getD_cons_succ]
      omega
    simp only [Linear.forward]
    rw [if_neg hcond]
    refine ⟨_, rfl, ?_, ?_, ?_⟩
    · simp [hw, hin]
    · simp [hw, hin]
    · intro b hb2 j hj2
      simp only [hw, hin, List.getD_cons_zero, List.getD_cons_succ]
      rw [getD_map_range _ _ _ (idx_lt batch outF b j hb2 hj2)]
      simp only [(idx_decode outF b j hj2).1, (idx_decode outF b j hj2).2]
      exact foldl_add_eq_sum
        (fun k => input.data.getD (b * inF + k) 0 * l.weight.data.getD (k * outF + j) 0)
        (l.bias.data.getD j 0) inF
  · norm_num [Linear.forward, linRef, linRefInput, linRefOutput, List.range_succ]

/-- Witness for C1: the general statement instantiated at the spec's reference
layer and input. -/
theorem linear_forward_matmul_witness :
    ∃ out, Linear.forward linRef linRefInput ⟨[], [], []⟩ = .ok out ∧
      out.shape = [2, 2] ∧ out.data.length = 2 * 2 ∧
      ∀ b < 2, ∀ j < 2,
        out.data.getD (b * 2 + j) 0 =
          linRef.bias.data.getD j 0 +
            ∑ k ∈ Finset.range 3,
              linRefInput.data.getD (b * 3 + k) 0 *
                linRef.weight.data.getD (k * 2 + j) 0 :=
  linear_forward_matmul.1 linRef linRefInput ⟨[], [], []⟩ 2 3 2 rfl rfl
    (by decide) (by decide) (by decide)

/-- Claim C2: `Linear::backward` overwrites the input tensor's grad buffer
(no accumulation) with `input_grad[b,k] = Σ_j output_grad[b,j]·weight[k,j]`,
while `weight.grad[k,j]` and `bias.grad[j]` are accumulated additively onto
their prior contents by `Σ_b output_grad[b,j]·input[b,k]` and
`Σ_b output_grad[b,j]` respectively. -/
theorem linear_backward_grads :
    ∀ (l : LinearLayer) (output input : Tensor) (batch inF outF : Nat),
      l.weight.shape = [inF, outF] →
      l.bias.shape = [outF] →
      input.shape = [batch, inF] →
      output.shape = [batch, outF] →
      0 < batch → 0 < inF → 0 < outF →
      ∃ inp lay, Linear.backward l output input = .ok (inp, lay) ∧
        inp.grad.length = batch * inF ∧
        (∀ b < batch, ∀ k < inF,
          inp.grad.getD (b * inF + k) 0 =
            ∑ j ∈ Finset.range outF,
              output.grad.getD (b * outF + j) 0 *
                l.weight.data.getD (k * outF + j) 0) ∧
        (∀ k < inF, ∀ j < outF,
          lay.weight.grad.getD (k * outF + j) 0 =
            l.weight.grad.getD (k * outF + j) 0 +
              ∑ b ∈ Finset.range batch,
                output.grad.getD (b * outF + j) 0 *
                  input.data.getD (b * inF + k) 0) ∧
        (∀ j < outF,
          lay.bias.grad.getD j 0 =
            l.bias.grad.getD j 0 +
              ∑ b ∈ Finset.range batch, output.grad.getD (b * outF + j) 0) := by
  intro l output input batch inF outF hw hbs hin hout hb hi ho
  have hvi : input.validate_shape = true := by
    simp [Tensor.validate_shape, hin]
    omega
  have hvw : l.weight.validate_shape = true := by
    simp [Tensor.validate_shape, hw]
    omega
  have hvb : l.bias.validate_shape = true := by
    simp [Tensor.validate_shape, hbs]
    omega
  simp only [Linear.backward, hvi, hvw, hvb]
  rw [if_neg (by simp), if_neg (by simp), if_neg (by simp)]
  refine ⟨_, _, rfl, ?_, ?_, ?_, ?_⟩
  · simp [hin, prodShape_pair]
  · intro b hb2 k hk2
    simp only [hw, hin, hout, List.getD_cons_zero, List.getD_cons_succ, prodShape_pair]
    rw [getD_map_range _ _ _ (idx_lt batch inF b k hb2 hk2)]
    simp only [(idx_decode inF b k hk2).1, (idx_decode inF b k hk2).2, if_pos hb2]
    rw [foldl_add_eq_sum
      (fun j => output.grad.getD (b * outF + j) 0 * l.weight.data.getD (k * outF + j) 0)
      0 outF, zero_add]
  · intro k hk2 j hj2
    simp only [hw, hin, hout, List.getD_cons_zero, List.getD_cons_succ, prodShape_pair]
    rw [getD_map_range _ _ _ (idx_lt inF outF k j hk2 hj2)]
    simp only [(idx_decode outF k j hj2).1, (idx_decode outF k j hj2).2, if_pos hk2]
    rw [foldl_add_eq_sum
      (fun b => output.grad.getD (b * outF + j) 0 * input.data.getD (b * inF + k) 0)
      _ batch,
      getD_resizeList _ _ _ (idx_lt inF outF k j hk2 hj2)]
  · intro j hj2
    simp only [hw, hbs, hout, List.getD_cons_zero, List.getD_cons_succ, prodShape_single]
    rw [getD_map_range _ _ _ hj2]
    simp only [if_pos hj2]
    rw [foldl_add_eq_sum (fun b => output.grad.getD (b * outF + j) 0) _ batch,
      getD_resizeList _ _ _ hj2]

/-- Unit upstream gradient of shape `[2, 2]`, carried in the grad buffer. -/
def linRefOg : Tensor := ⟨[2, 2], [], [1, 1, 1, 1]⟩

/-- Witness for C2: the statement instantiated at the spec's reference layer,
unit upstream gradient and reference input. -/
theorem linear_backward_grads_witness :
    ∃ inp lay, Linear.backward linRef linRefOg linRefInput = .ok (inp, lay) ∧
      inp.grad.length = 2 * 3 ∧
      (∀ b < 2, ∀ k < 3,
        inp.grad.getD (b * 3 + k) 0 =
          ∑ j ∈ Finset.range 2,
            linRefOg.grad.getD (b * 2 + j) 0 *
              linRef.weight.data.getD (k * 2 + j) 0) ∧
      (∀ k < 3, ∀ j < 2,
        lay.weight.grad.getD (k * 2 + j) 0 =
          linRef.weight.grad.getD (k * 2 + j) 0 +
            ∑ b ∈ Finset.range 2,
              linRefOg.grad.getD (b * 2 + j) 0 *
                linRefInput.data.getD (b * 3 + k) 0) ∧
      (∀ j < 2,
        lay.bias.grad.getD j 0 =
          linRef.bias.grad.getD j 0 +
            ∑ b ∈ Finset.range 2, linRefOg.grad.getD (b * 2 + j) 0) :=
  linear_backward_grads linRef linRefOg linRefInput 2 3 2 rfl rfl rfl rfl
    (by decide) (by decide) (by decide)

/- ## Elementwise activation layers (`struct ReLU`, `struct Sigmoid`, `struct Tanh`) -/

/-- `ReLU::backward`.  `input.resize_grad()` throws `InvalidShape` on an
invalid input shape; the loop then writes
`input.grad[i] = output.data[i] > 0 ? output.grad[i] : 0` for every index
`i < output.data.size()`.  Cells of the resized grad buffer beyond the
upstream data length keep their resized previous contents (indices beyond
the grad buffer would be out-of-bounds writes in the source and are not
modelled). -/
def ReLU.backward (output input : Tensor) : Except TtieError Tensor :=
  if ¬ input.validate_shape then .error .invalidShape
  else
    .ok { input with
      grad := (List.range (prodShape input.shape)).map (fun i =>
        if i < output.data.length then
          if 0 < output.data.getD i 0 then output.grad.getD i 0 else 0
        else (resizeList input.grad (prodShape input.shape)).getD i 0) }

/-- `Sigmoid::backward`: `input.grad[i] = output.grad[i] * s * (1 - s)` with
`s = output.data[i]` (the forward output, not the input); same resize
behaviour as `ReLU::backward`. -/
def Sigmoid.backward (output input : Tensor) : Except TtieError Tensor :=
  if ¬ input.validate_shape then .error .invalidShape
  else
    .ok { input with
      grad := (List.range (prodShape input.shape)).map (fun i =>
        if i < output.data.length then
          output.grad.getD i 0 * output.data.getD i 0 * (1 - output.data.getD i 0)
        else (resizeList input.grad (prodShape input.shape)).getD i 0) }

/-- `Tanh::backward`: `input.grad[i] = output.grad[i] * (1 - t * t)` with
`t = output.data[i]` (the forward output, not the input); same resize
behaviour as `ReLU::backward`. -/
def Tanh.backward (output input : Tensor) : Except TtieError Tensor :=
  if ¬ input.validate_shape then .error .invalidShape
  else
    .ok { input with
      grad := (List.range (prodShape input.shape)).map (fun i =>
        if i < output.data.length then
          output.grad.getD i 0 *
            (1 - output.data.getD i 0 * output.data.getD i 0)
        else (resizeList input.grad (prodShape input.shape)).getD i 0) }

/-- `ReLU::forward`: shape copied, output resized, then
`output.data[i] = max(0, input.data[i])` for `i < input.data.size()`
(`output.resize()` throws `InvalidShape` on an invalid shape). -/
def ReLU.forward (input output : Tensor) : Except TtieError Tensor :=
  if ¬ input.validate_shape then .error .invalidShape
  else
    .ok { shape := input.shape,
          data := (List.range (prodShape input.shape)).map (fun i =>
            if i < input.data.length then max 0 (input.data.getD i 0)
            else (resizeList output.data (prodShape input.shape)).getD i 0),
          grad := output.grad }

/-- Claim C5: every activation backward computes the input gradient from the
forward OUTPUT value: ReLU propagates `output_grad[i]` iff `output[i] > 0`,
Sigmoid multiplies by `s·(1-s)` with `s = output[i]`, Tanh by `(1 - t·t)` with
`t = output[i]`. -/
theorem activation_backward_from_output :
    ∀ (output input : Tensor), input.validate_shape = true →
      (∃ r, ReLU.backward output input = .ok r ∧
        ∀ i, i < output.data.length → i < prodShape input.shape →
          r.grad.getD i 0 =
            if 0 < output.data.getD i 0 then output.grad.getD i 0 else 0) ∧
      (∃ r, Sigmoid.backward output input = .ok r ∧
        ∀ i, i < output.data.length → i < prodShape input.shape →
          r.grad.getD i 0 =
            output.grad.getD i 0 * output.data.getD i 0 *
              (1 - output.data.getD i 0)) ∧
      (∃ r, Tanh.backward output input = .ok r ∧
        ∀ i, i < output.data.length → i < prodShape input.shape →
          r.grad.getD i 0 =
            output.grad.getD i 0 *
              (1 - output.data.getD i 0 * output.data.getD i 0)) := by
  intro output input hv
  refine ⟨?_, ?_, ?_⟩
  · simp only [ReLU.backward, hv]
    rw [if_neg (by simp)]
    refine ⟨_, rfl, ?_⟩
    intro i hio hip
    simp only
    rw [getD_map_range _ _ _ hip]
    simp only [if_pos hio]
  · simp only [Sigmoid.backward, hv]
    rw [if_neg (by simp)]
    refine ⟨_, rfl, ?_⟩
    intro i hio hip
    simp only
    rw [getD_map_range _ _ _ hip]
    simp only [if_pos hio]
  · simp only [Tanh.backward, hv]
    rw [if_neg (by simp)]
    refine ⟨_, rfl, ?_⟩
    intro i hio hip
    simp only
    rw [getD_map_range _ _ _ hip]
    simp only [if_pos hio]

/-- Witness for C5 at a concrete output/input pair of three elements. -/
theorem activation_backward_from_output_witness :
    (∃ r, ReLU.backward ⟨[3], [1, -2, 3], [5, 6, 7]⟩ ⟨[3], [], []⟩ = .ok r ∧
      ∀ i, i < (⟨[3], [1, -2, 3], [5, 6, 7]⟩ : Tensor).data.length →
        i < prodShape [3] →
        r.grad.getD i 0 =
          if 0 < (⟨[3], [1, -2, 3], [5, 6, 7]⟩ : Tensor).data.getD i 0 then
            (⟨[3], [1, -2, 3], [5, 6, 7]⟩ : Tensor).grad.getD i 0
          else 0) ∧
    (∃ r, Sigmoid.backward ⟨[3], [1, -2, 3], [5, 6, 7]⟩ ⟨[3], [], []⟩ = .ok r ∧
      ∀ i, i < (⟨[3], [1, -2, 3], [5, 6, 7]⟩ : Tensor).data.length →
        i < prodShape [3] →
        r.grad.getD i 0 =
          (⟨[3], [1, -2, 3], [5, 6, 7]⟩ : Tensor).grad.getD i 0 *
            (⟨[3], [1, -2, 3], [5, 6, 7]⟩ : Tensor).data.getD i 0 *
            (1 - (⟨[3], [1, -2, 3], [5, 6, 7]⟩ : Tensor).data.getD i 0)) ∧
    (∃ r, Tanh.backward ⟨[3], [1, -2, 3], [5, 6, 7]⟩ ⟨[3], [], []⟩ = .ok r ∧
      ∀ i, i < (⟨[3], [1, -2, 3], [5, 6, 7]⟩ : Tensor).data.length →
        i < prodShape [3] →
        r.grad.getD i 0 =
          (⟨[3], [1, -2, 3], [5, 6, 7]⟩ : Tensor).grad.getD i 0 *
            (1 - (⟨[3], [1, -2, 3], [5, 6, 7]⟩ : Tensor).data.getD i 0 *
              (⟨[3], [1, -2, 3], [5, 6, 7]⟩ : Tensor).data.getD i 0)) :=
  activation_backward_from_output ⟨[3], [1, -2, 3], [5, 6, 7]⟩ ⟨[3], [], []⟩
    (by decide)

/- ## `mse_loss` -/

/-- `mse_loss`: throws `SizeMismatch` when the two data buffers' element counts
differ; otherwise returns a fresh tensor of shape `{1}` whose single cell
accumulates `(pred[i]-target[i])²` over all elements and is then divided by
`pred.data.size()` (the grad buffer of the result is never sized). -/
def mse_loss (pred target : Tensor) : Except TtieError Tensor :=
  if pred.data.length ≠ target.data.length then .error .sizeMismatch
  else
    .ok { shape := [1],
          data := [((List.range pred.data.length).foldl
              (fun a i => a + (pred.data.getD i 0 - target.data.getD i 0) *
                (pred.data.getD i 0 - target.data.getD i 0)) 0) /
            (pred.data.length : ℚ)],
          grad := [] }

/-- Claim C7: `mse_loss` fails with `SizeMismatch` iff the flattened element
counts differ; otherwise it returns a rank-1, size-1 tensor holding the mean
of squared elementwise differences, and on two identical tensors that value is
exactly 0. -/
theorem mse_loss_spec :
    (∀ pred target : Tensor,
      mse_loss pred target = .error .sizeMismatch ↔
        pred.data.length ≠ target.data.length) ∧
    (∀ pred target : Tensor, pred.data.length = target.data.length →
      ∃ r, mse_loss pred target = .ok r ∧ r.shape = [1] ∧ r.data.length = 1 ∧
        r.data.getD 0 0 =
          (∑ i ∈ Finset.range pred.data.length,
            (pred.data.getD i 0 - target.data.getD i 0) *
              (pred.data.getD i 0 - target.data.getD i 0)) /
            (pred.data.length : ℚ)) ∧
    (∀ pred : Tensor, ∃ r, mse_loss pred pred = .ok r ∧ r.data.getD 0 0 = 0) := by
  refine ⟨?_, ?_, ?_⟩
  · intro pred target
    constructor
    · intro h
      by_contra hne
      simp only [mse_loss] at h
      rw [if_neg (by omega)] at h
      exact Except.noConfusion h
    · intro hne
      simp only [mse_loss, if_pos hne]
  · intro pred target heq
    have hne : ¬ (pred.data.length ≠ target.data.length) := by omega
    simp only [mse_loss]
    rw [if_neg hne]
    refine ⟨_, rfl, rfl, rfl, ?_⟩
    simp only [List.getD_cons_zero]
    rw [foldl_add_eq_sum
      (fun i => (pred.data.getD i 0 - target.data.getD i 0) *
        (pred.data.getD i 0 - target.data.getD i 0)) 0 pred.data.length,
      zero_add]
  · intro pred
    have hne : ¬ (pred.data.length ≠ pred.data.length) := by omega
    simp only [mse_loss]
    rw [if_neg hne]
    refine ⟨_, rfl, ?_⟩
    simp only [List.getD_cons_zero]
    rw [foldl_add_eq_sum
      (fun i => (pred.data.getD i 0 - pred.data.getD i 0) *
        (pred.data.getD i 0 - pred.data.getD i 0)) 0 pred.data.length]
    simp

/-- Witness for C7 on concrete tensors of two elements. -/
theorem mse_loss_spec_witness :
    (∃ r, mse_loss ⟨[2], [1, 3], []⟩ ⟨[2], [2, 5], []⟩ = .ok r ∧
      r.shape = [1] ∧ r.data.length = 1 ∧
      r.data.getD 0 0 =
        (∑ i ∈ Finset.range (⟨[2], [1, 3], []⟩ : Tensor).data.length,
          ((⟨[2], [1, 3], []⟩ : Tensor).data.getD i 0 -
              (⟨[2], [2, 5], []⟩ : Tensor).data.getD i 0) *
            ((⟨[2], [1, 3], []⟩ : Tensor).data.getD i 0 -
              (⟨[2], [2, 5], []⟩ : Tensor).data.getD i 0)) /
          ((⟨[2], [1, 3], []⟩ : Tensor).data.length : ℚ)) ∧
    (∃ r, mse_loss ⟨[2], [1, 3], []⟩ ⟨[2], [1, 3], []⟩ = .ok r ∧
      r.data.getD 0 0 = 0) :=
  ⟨mse_loss_spec.2.1 ⟨[2], [1, 3], []⟩ ⟨[2], [2, 5], []⟩ (by decide),
   mse_loss_spec.2.2 ⟨[2], [1, 3], []⟩⟩

/- ## Model (`struct Model`) -/

/-- A layer slot of a Model: the source dispatches virtually on
`Layer::forward` / `Layer::backward`.  For the model-level orchestration
claims a layer is its two fallible tensor transformers: `fwd cur slot` gets
the running activation and the tensor slot the layer writes into,
`bwd grad prev` gets the upstream gradient tensor and the predecessor's slot. -/
structure LayerFn where
  fwd : Tensor → Tensor → Except TtieError Tensor
  bwd : Tensor → Tensor → Except TtieError Tensor

/-- A `ReLU` layer as a model slot. -/
def reluLayer : LayerFn := ⟨ReLU.forward, ReLU.backward⟩

/-- `struct Model`: the ordered layer sequence plus the cached intermediate
activation tensors. -/
structure ModelM where
  layers : List LayerFn
  activations : List Tensor

/-- `n - 1` as computed on `size_t`: `layers.size() - 1` wraps around to
`2^64 - 1` when the model has no layers. -/
def size_t_sub1 (n : Nat) : Nat := (n + (2 ^ 64 - 1)) % 2 ^ 64

/-- `std::vector<Tensor>::resize`: keep a prefix of the existing tensors, pad
with default-constructed (empty) tensors when growing. -/
def resizeTensors (l : List Tensor) (n : Nat) : List Tensor :=
  l.take n ++ List.replicate (n - l.length) ⟨[], [], []⟩

theorem length_resizeTensors (l : List Tensor) (n : Nat) :
    (resizeTensors l n).length = n := by
  unfold resizeTensors
  simp [List.length_take]
  omega

/-- The forward streaming loop of `Model::forward`: `current` starts at the
input; layer `i` writes into `slots[i]`, where the slot sequence is the
resized activation cache with the caller's output tensor appended (the source
picks `&output` at the last index and `&activations[i]` otherwise, which is
exactly this sequence).  Returns the values written into the slots, in order.
`missingSlot` stands for the out-of-bounds activation access a malformed
cache would cause. -/
def streamForward : List LayerFn → List Tensor → Tensor →
    Except TtieError (List Tensor)
  | [], _, _ => .ok []
  | l :: ls, slots, cur =>
    match slots with
    | [] => .error .missingSlot
    | s :: rest =>
      match l.fwd cur s with
      | .error e => .error e
      | .ok t =>
        match streamForward ls rest t with
        | .error e => .error e
        | .ok tl => .ok (t :: tl)

/-- `Model::forward`: resizes the activation cache to `layers.size() - 1`
entries (`size_t` arithmetic, so a zero-layer model requests `2^64 - 1`
default tensors — the unsigned underflow; the unsatisfiable allocation is
modelled as the `activationAlloc` failure), then streams the input through the
layers in registration order, the last layer writing into the caller-supplied
output slot.  Returns the new activation cache and the final output. -/
def Model.forward (m : ModelM) (input output : Tensor) :
    Except TtieError (List Tensor × Tensor) :=
  if m.layers.isEmpty then .error .activationAlloc
  else
    match streamForward m.layers
        (resizeTensors m.activations (size_t_sub1 m.layers.length) ++ [output])
        input with
    | .error e => .error e
    | .ok written => .ok (written.dropLast, written.getLast?.getD output)

/-- The backward streaming loop of `Model::backward`, over the layers in
reverse registration order (head = last registered layer) and the reversed
activation cache; `cur` is the running upstream gradient and the innermost
(first-registered) layer writes into the caller's `input` tensor.  Returns the
tensor written at the far end and the updated slots in processing order. -/
def streamBackward : List LayerFn → List Tensor → Tensor → Tensor →
    Except TtieError (Tensor × List Tensor)
  | [], _, _, inp => .ok (inp, [])
  | l :: ls, acts, cur, inp =>
    match ls, acts with
    | [], _ =>
      match l.bwd cur inp with
      | .error e => .error e
      | .ok t => .ok (t, [])
    | _ :: _, [] => .error .missingSlot
    | _ :: _, a :: rest =>
      match l.bwd cur a with
      | .error e => .error e
      | .ok p =>
        match streamBackward ls rest p inp with
        | .error e => .error e
        | .ok r => .ok (r.1, p :: r.2)

/-- `Model::backward`: guarded by `activations.size() != layers.size() - 1`
(`size_t` arithmetic), throwing the IllegalState error ("Forward pass must be
called before backward pass"); otherwise streams the gradient backward
through the layers in reverse order, writing into `input` at the far end. -/
def Model.backward (m : ModelM) (outputGrad input : Tensor) :
    Except TtieError (Tensor × List Tensor) :=
  if m.activations.length ≠ size_t_sub1 m.layers.length then .error .illegalState
  else streamBackward m.layers.reverse m.activations.reverse outputGrad input

/-- Counterexample for C4: a freshly built SINGLE-layer model (one `ReLU`,
activation cache empty, forward never called).  The guard compares the cache
size `0` with `layers.size() - 1 = 0` and passes, and the backward sweep
completes without any failure — not the `IllegalState` the claim promises for
every model. -/
theorem model_backward_single_layer_ok :
    Model.backward ⟨[reluLayer], []⟩ ⟨[1], [1], [1]⟩ ⟨[1], [], []⟩ =
      .ok (⟨[1], [], [1]⟩, []) := by
  rfl

/-- Claim C4 (amended): on a model whose activation cache is empty (no forward
call has happened), `Model::backward` fails with `IllegalState` whenever the
layer count differs from 1 (and is below `2^64`, the `size_t` range): the
guard compares the cache size with `layers.size() - 1` computed on `size_t`,
so a zero-layer model compares `0` against `2^64 - 1`, a model with two or
more layers compares `0` against a positive count, and only a single-layer
model slips through. -/
theorem model_backward_illegal_state :
    ∀ (m : ModelM) (og inp : Tensor),
      m.activations = [] → m.layers.length < 2 ^ 64 → m.layers.length ≠ 1 →
      Model.backward m og inp = .error .illegalState := by
  intro m og inp hact hlt hne
  have h64 : (2 : Nat) ^ 64 = 18446744073709551616 := by norm_num
  have hg : m.activations.length ≠ size_t_sub1 m.layers.length := by
    rw [hact]
    unfold size_t_sub1
    rw [h64] at *
    simp only [List.length_nil]
    omega
  simp only [Model.backward]
  rw [if_pos hg]

/-- Witness for the amended C4 at a fresh two-layer model. -/
theorem model_backward_illegal_state_witness :
    Model.backward ⟨[reluLayer, reluLayer], []⟩ ⟨[1], [1], [1]⟩ ⟨[1], [], []⟩ =
      .error .illegalState :=
  model_backward_illegal_state ⟨[reluLayer, reluLayer], []⟩ _ _ rfl
    (by decide) (by decide)

/-- Spec-side streaming description, following the spec's words: "streams
input through layer 0 into activation 0, activation i into layer i+1's
output, and the last layer writes directly into the caller-supplied output
tensor".  Pure layer functions `g` receive the running value and the slot
they write into; the list collects, in order, the tensor each layer
produced (so the last entry is what the last layer wrote into the output
slot). -/
def streamSpecList : List (Tensor → Tensor → Tensor) → List Tensor → Tensor →
    List Tensor
  | [], _, _ => []
  | g :: gs, s :: slots, cur => g cur s :: streamSpecList gs slots (g cur s)
  | _ :: _, [], _ => []

/-- Wraps a pure layer function as a model slot (the backward member is
irrelevant to the forward-streaming claim). -/
def pureLayer (g : Tensor → Tensor → Tensor) : LayerFn :=
  ⟨fun c s => .ok (g c s), fun _ p => .ok p⟩

theorem streamForward_pure (gs : List (Tensor → Tensor → Tensor))
    (slots : List Tensor) (cur : Tensor) (h : gs.length ≤ slots.length) :
    streamForward (gs.map pureLayer) slots cur =
      .ok (streamSpecList gs slots cur) := by
  induction gs generalizing slots cur with
  | nil => simp [streamForward, streamSpecList]
  | cons g gs ih =>
      match slots with
      | [] => simp at h
      | s :: rest =>
          simp only [List.map_cons, streamForward, streamSpecList, pureLayer]
          rw [ih rest (g cur s) (by simpa using h)]

/-- Claim C8: `Model::forward` on a model with at least one layer allocates
exactly `layer_count - 1` activation slots and streams the input through the
layers in registration order, the last layer writing directly into the
caller-supplied output tensor; on a zero-layer model the activation-count
computation `layers.size() - 1` underflows on the unsigned count to
`2^64 - 1`, a failing condition rather than a clean no-op. -/
theorem model_forward_streams :
    size_t_sub1 0 = 2 ^ 64 - 1 ∧
    (∀ (m : ModelM) (input output : Tensor), m.layers = [] →
      Model.forward m input output = .error .activationAlloc) ∧
    (∀ (gs : List (Tensor → Tensor → Tensor)) (acts : List Tensor)
        (input output : Tensor), gs ≠ [] → gs.length < 2 ^ 64 →
      (resizeTensors acts (size_t_sub1 gs.length)).length = gs.length - 1 ∧
      Model.forward ⟨gs.map pureLayer, acts⟩ input output =
        .ok ((streamSpecList gs
            (resizeTensors acts (gs.length - 1) ++ [output]) input).dropLast,
          (streamSpecList gs
              (resizeTensors acts (gs.length - 1) ++ [output]) input).getLast?.getD
            output)) := by
  have h64 : (2 : Nat) ^ 64 = 18446744073709551616 := by norm_num
  refine ⟨by unfold size_t_sub1; rw [h64], ?_, ?_⟩
  · intro m input output hl
    simp [Model.forward, hl]
  · intro gs acts input output hne hlt
    have hlen : 0 < gs.length := List.length_pos.mpr hne
    have hsub : size_t_sub1 gs.length = gs.length - 1 := by
      unfold size_t_sub1
      rw [h64] at *
      omega
    constructor
    · rw [hsub, length_resizeTensors]
    · have hisEmpty : (gs.map pureLayer).isEmpty = false := by
        cases gs with
        | nil => exact absurd rfl hne
        | cons a as => rfl
      simp only [Model.forward, hisEmpty, List.length_map, hsub]
      rw [streamForward_pure gs _ input
        (by
          simp only [List.length_append, length_resizeTensors, List.length_cons,
            List.length_nil]
          omega)]
      rfl

/-- Witness for C8 at a concrete two-layer model of pure layers. -/
theorem model_forward_streams_witness :
    (resizeTensors [] (size_t_sub1 2)).length = 2 - 1 ∧
    Model.forward ⟨[fun c _ => c, fun c _ => c].map pureLayer, []⟩
        ⟨[1], [2], []⟩ ⟨[], [], []⟩ =
      .ok ((streamSpecList [fun c _ => c, fun c _ => c]
          (resizeTensors [] (2 - 1) ++ [⟨[], [], []⟩]) ⟨[1], [2], []⟩).dropLast,
        (streamSpecList [fun c _ => c, fun c _ => c]
            (resizeTensors [] (2 - 1) ++ [⟨[], [], []⟩])
            ⟨[1], [2], []⟩).getLast?.getD ⟨[], [], []⟩) :=
  model_forward_streams.2.2 [fun c _ => c, fun c _ => c] [] ⟨[1], [2], []⟩
    ⟨[], [], []⟩ (by simp) (by decide)

/- ## BatchNorm1d / BatchNorm2d / BatchNorm3d

The three classes are identical except for the loop rank.  They are embedded
through one common core parametrised by the per-channel position count `S`
(`1` for 1d, `H*W` for 2d, `D*H*W` for 3d): the flat row-major index of
position `p` in channel `c` of sample `n` is `n*(C*S) + c*S + p`, literally
the source's `n*C*H*W + c*H*W + h*W + w` with `p = h*W + w` (resp.
`p = d*H*W + h*W + w`), and the nested loops enumerate exactly these indices
in ascending `q = n*S + p` order. -/

/-- Constructor arguments shared by the three BatchNorm variants. -/
structure BNConfig where
  numFeatures : Nat
  eps : ℚ
  momentum : ℚ
  affine : Bool
  trackRunningStats : Bool

/-- Mutable state of a BatchNorm layer: affine parameters `gamma` / `beta`
(data and grad buffers), running statistics, the raw input buffer cached by
forward for backward, and the `first_update` flag. -/
structure BNState where
  gammaData : List ℚ
  gammaGrad : List ℚ
  betaData : List ℚ
  betaGrad : List ℚ
  runningMean : List ℚ
  runningVar : List ℚ
  inputData : List ℚ
  firstUpdate : Bool

/-- The BatchNorm constructor: when affine, `gamma` is drawn uniformly from
`[0.9, 1.1]` (abstracted as an arbitrary `gammaInit`), `beta` is filled with
`0.0f`, and both grad buffers are sized by `resize_grad` (zero padded); when
tracking, the running buffers are sized (zero filled).  `first_update` starts
true and the input cache empty. -/
def bnInit (cfg : BNConfig) (gammaInit : Nat → ℚ) : BNState :=
  { gammaData :=
      if cfg.affine then (List.range cfg.numFeatures).map gammaInit else []
    gammaGrad := if cfg.affine then List.replicate cfg.numFeatures 0 else []
    betaData := if cfg.affine then List.replicate cfg.numFeatures 0 else []
    betaGrad := if cfg.affine then List.replicate cfg.numFeatures 0 else []
    runningMean :=
      if cfg.trackRunningStats then List.replicate cfg.numFeatures 0 else []
    runningVar :=
      if cfg.trackRunningStats then List.replicate cfg.numFeatures 0 else []
    inputData := []
    firstUpdate := true }

/-- Flat row-major index of position `p` in channel `c` of sample `n`. -/
def bnIdx (C S c n p : Nat) : Nat := n * (C * S) + c * S + p

/-- Per-channel batch mean over the `N*S` non-channel positions: the source's
accumulation loop followed by `/= count`, enumerated by `q` with `n = q / S`,
`p = q % S`. -/
def bnMean (x : List ℚ) (C S N c : Nat) : ℚ :=
  ((List.range (N * S)).foldl
    (fun a q => a + x.getD (bnIdx C S c (q / S) (q % S)) 0) 0) /
    ((N * S : Nat) : ℚ)

/-- Per-channel biased (divide-by-count) batch variance. -/
def bnVar (x : List ℚ) (C S N c : Nat) : ℚ :=
  ((List.range (N * S)).foldl
    (fun a q =>
      a + (x.getD (bnIdx C S c (q / S) (q % S)) 0 - bnMean x C S N c) *
        (x.getD (bnIdx C S c (q / S) (q % S)) 0 - bnMean x C S N c)) 0) /
    ((N * S : Nat) : ℚ)

/-- `inv_std = 1 / sqrt(var + eps)`; `sq` abstracts `std::sqrt`. -/
def bnInvStd (sq : ℚ → ℚ) (eps v : ℚ) : ℚ := 1 / sq (v + eps)

/-- `x_hat = (x[idx] - mean_c) * inv_std_c` for a flat index `idx` lying in
channel `c`. -/
def bnXhat (sq : ℚ → ℚ) (eps : ℚ) (x : List ℚ) (C S N c idx : Nat) : ℚ :=
  (x.getD idx 0 - bnMean x C S N c) * bnInvStd sq eps (bnVar x C S N c)

/-- Channel of a flat index: `(idx % (C*S)) / S`. -/
def bnChan (C S idx : Nat) : Nat := (idx % (C * S)) / S

/-- One output cell of forward: `gamma*x_hat + beta` when affine, else
`x_hat`. -/
def bnOutEntry (cfg : BNConfig) (sq : ℚ → ℚ) (st : BNState) (x : List ℚ)
    (N S idx : Nat) : ℚ :=
  if cfg.affine then
    st.gammaData.getD (bnChan cfg.numFeatures S idx) 0 *
        bnXhat sq cfg.eps x cfg.numFeatures S N (bnChan cfg.numFeatures S idx)
          idx +
      st.betaData.getD (bnChan cfg.numFeatures S idx) 0
  else
    bnXhat sq cfg.eps x cfg.numFeatures S N (bnChan cfg.numFeatures S idx) idx

/-- The forward output buffer: the loops write every flat index exactly once. -/
def bnForwardData (cfg : BNConfig) (sq : ℚ → ℚ) (st : BNState) (x : List ℚ)
    (N S : Nat) : List ℚ :=
  (List.range (N * cfg.numFeatures * S)).map (bnOutEntry cfg sq st x N S)

/-- Running-mean update: on the first forward call assign the batch mean
directly, afterwards blend `(1-momentum)·running + momentum·batch`; untouched
when not tracking. -/
def bnNewRunningMean (cfg : BNConfig) (st : BNState) (x : List ℚ)
    (N S : Nat) : List ℚ :=
  if cfg.trackRunningStats then
    (List.range cfg.numFeatures).map (fun c =>
      if st.firstUpdate then bnMean x cfg.numFeatures S N c
      else (1 - cfg.momentum) * st.runningMean.getD c 0 +
        cfg.momentum * bnMean x cfg.numFeatures S N c)
  else st.runningMean

/-- Running-variance update, same policy as `bnNewRunningMean`. -/
def bnNewRunningVar (cfg : BNConfig) (st : BNState) (x : List ℚ)
    (N S : Nat) : List ℚ :=
  if cfg.trackRunningStats then
    (List.range cfg.numFeatures).map (fun c =>
      if st.firstUpdate then bnVar x cfg.numFeatures S N c
      else (1 - cfg.momentum) * st.runningVar.getD c 0 +
        cfg.momentum * bnVar x cfg.numFeatures S N c)
  else st.runningVar

/-- Common body of the three forward methods after their shape checks: cache
the raw input, update the running statistics, emit the normalised output and
clear `first_update`. -/
def bnForwardCore (cfg : BNConfig) (sq : ℚ → ℚ) (st : BNState) (x : List ℚ)
    (N S : Nat) : List ℚ × BNState :=
  (bnForwardData cfg sq st x N S,
   { st with
      inputData := x
      runningMean := bnNewRunningMean cfg st x N S
      runningVar := bnNewRunningVar cfg st x N S
      firstUpdate := false })

/-- `BatchNorm1d::forward`: requires a rank-2 input with
`shape[1] = num_features` (else the ShapeMismatch throw); `output.resize()`
then throws `InvalidShape` on a zero dimension.  `S = 1`. -/
def bn1dForward (cfg : BNConfig) (sq : ℚ → ℚ) (st : BNState)
    (input output : Tensor) : Except TtieError (Tensor × BNState) :=
  if input.shape.length ≠ 2 ∨ input.shape.getD 1 0 ≠ cfg.numFeatures then
    .error .shapeMismatch
  else if input.shape.getD 0 0 = 0 ∨ cfg.numFeatures = 0 then
    .error .invalidShape
  else
    .ok ({ shape := [input.shape.getD 0 0, cfg.numFeatures],
           data := (bnForwardCore cfg sq st input.data (input.shape.getD 0 0) 1).1,
           grad := output.grad },
         (bnForwardCore cfg sq st input.data (input.shape.getD 0 0) 1).2)

/-- `BatchNorm2d::forward`: rank-4 `[N, C, H, W]` with `C = num_features`,
then the `input.data.size() == input.size()` check (whose `size()` call
throws `InvalidShape` first when a dimension is zero).  `S = H*W`. -/
def bn2dForward (cfg : BNConfig) (sq : ℚ → ℚ) (st : BNState)
    (input output : Tensor) : Except TtieError (Tensor × BNState) :=
  if input.shape.length ≠ 4 then .error .shapeMismatch
  else if input.shape.getD 1 0 ≠ cfg.numFeatures then .error .shapeMismatch
  else if ¬ input.validate_shape then .error .invalidShape
  else if input.data.length ≠ prodShape input.shape then .error .dataSizeMismatch
  else
    .ok ({ shape := input.shape,
           data := (bnForwardCore cfg sq st input.data (input.shape.getD 0 0)
             (input.shape.getD 2 0 * input.shape.getD 3 0)).1,
           grad := output.grad },
         (bnForwardCore cfg sq st input.data (input.shape.getD 0 0)
           (input.shape.getD 2 0 * input.shape.getD 3 0)).2)

/-- `BatchNorm3d::forward`: rank-5 `[N, C, D, H, W]`, otherwise exactly like
the 2d variant.  `S = D*H*W`. -/
def bn3dForward (cfg : BNConfig) (sq : ℚ → ℚ) (st : BNState)
    (input output : Tensor) : Except TtieError (Tensor × BNState) :=
  if input.shape.length ≠ 5 then .error .shapeMismatch
  else if input.shape.getD 1 0 ≠ cfg.numFeatures then .error .shapeMismatch
  else if ¬ input.validate_shape then .error .invalidShape
  else if input.data.length ≠ prodShape input.shape then .error .dataSizeMismatch
  else
    .ok ({ shape := input.shape,
           data := (bnForwardCore cfg sq st input.data (input.shape.getD 0 0)
             (input.shape.getD 2 0 * input.shape.getD 3 0 *
               input.shape.getD 4 0)).1,
           grad := output.grad },
         (bnForwardCore cfg sq st input.data (input.shape.getD 0 0)
           (input.shape.getD 2 0 * input.shape.getD 3 0 *
             input.shape.getD 4 0)).2)

/-- Per-channel `Σ dy` over the `N*S` positions of channel `c`. -/
def bnSumDy (og : List ℚ) (C S N c : Nat) : ℚ :=
  (List.range (N * S)).foldl
    (fun a q => a + og.getD (bnIdx C S c (q / S) (q % S)) 0) 0

/-- Per-channel `Σ dy·x_hat` over the positions of channel `c`. -/
def bnSumDyXhat (sq : ℚ → ℚ) (eps : ℚ) (x og : List ℚ) (C S N c : Nat) : ℚ :=
  (List.range (N * S)).foldl
    (fun a q => a + og.getD (bnIdx C S c (q / S) (q % S)) 0 *
      bnXhat sq eps x C S N c (bnIdx C S c (q / S) (q % S))) 0

/-- One cell of `grad_input.grad`: the source's `term1 - term2 - term3` with
the statistics recomputed from the cached input (`x = st.inputData`),
`gamma_val = gamma[c]` when affine else `1`, `factor/count = N*S`. -/
def bnGradInAt (cfg : BNConfig) (sq : ℚ → ℚ) (st : BNState) (og : List ℚ)
    (N S c idx : Nat) : ℚ :=
  og.getD idx 0 *
      bnInvStd sq cfg.eps (bnVar st.inputData cfg.numFeatures S N c) *
      (if cfg.affine then st.gammaData.getD c 0 else 1) -
    bnInvStd sq cfg.eps (bnVar st.inputData cfg.numFeatures S N c) *
      bnSumDy og cfg.numFeatures S N c / ((N * S : Nat) : ℚ) *
      (if cfg.affine then st.gammaData.getD c 0 else 1) -
    bnInvStd sq cfg.eps (bnVar st.inputData cfg.numFeatures S N c) *
      bnXhat sq cfg.eps st.inputData cfg.numFeatures S N c idx *
      bnSumDyXhat sq cfg.eps st.inputData og cfg.numFeatures S N c /
      ((N * S : Nat) : ℚ) *
      (if cfg.affine then st.gammaData.getD c 0 else 1)

/-- The `grad_input.grad` buffer: every flat index written exactly once. -/
def bnGradInData (cfg : BNConfig) (sq : ℚ → ℚ) (st : BNState) (og : List ℚ)
    (N S : Nat) : List ℚ :=
  (List.range (N * cfg.numFeatures * S)).map (fun idx =>
    bnGradInAt cfg sq st og N S (bnChan cfg.numFeatures S idx) idx)

/-- New `beta.grad`: per channel, the `+=` accumulation of `dy` over the
channel's positions in loop order, starting from `0` when the variant zeroes
the buffer first (2d/3d) and from the prior cell value otherwise (1d).
Untouched when not affine.  The buffer is `num_features` long (the
constructor sizes it so; the 2d/3d variants also check it). -/
def bnNewBetaGrad (cfg : BNConfig) (st : BNState) (og : List ℚ) (N S : Nat)
    (zeroFirst : Bool) : List ℚ :=
  if cfg.affine then
    (List.range cfg.numFeatures).map (fun c =>
      (List.range (N * S)).foldl
        (fun a q => a + og.getD (bnIdx cfg.numFeatures S c (q / S) (q % S)) 0)
        (if zeroFirst then 0 else st.betaGrad.getD c 0))
  else st.betaGrad

/-- New `gamma.grad`: per channel, the `+=` accumulation of `dy·x_hat`, same
zeroing policy as `bnNewBetaGrad`. -/
def bnNewGammaGrad (cfg : BNConfig) (sq : ℚ → ℚ) (st : BNState) (og : List ℚ)
    (N S : Nat) (zeroFirst : Bool) : List ℚ :=
  if cfg.affine then
    (List.range cfg.numFeatures).map (fun c =>
      (List.range (N * S)).foldl
        (fun a q => a + og.getD (bnIdx cfg.numFeatures S c (q / S) (q % S)) 0 *
          bnXhat sq cfg.eps st.inputData cfg.numFeatures S N c
            (bnIdx cfg.numFeatures S c (q / S) (q % S)))
        (if zeroFirst then 0 else st.gammaGrad.getD c 0))
  else st.gammaGrad

/-- Common body of the three backward methods after their checks: recompute
the per-channel statistics from the cached input, write `grad_input.grad`
cell-wise and update the affine parameter grads, the 2d/3d variants zeroing
them first (`zeroFirst = true`). -/
def bnBackwardCore (cfg : BNConfig) (sq : ℚ → ℚ) (st : BNState) (og : List ℚ)
    (N S : Nat) (zeroFirst : Bool) : List ℚ × BNState :=
  (bnGradInData cfg sq st og N S,
   { st with
      betaGrad := bnNewBetaGrad cfg st og N S zeroFirst
      gammaGrad := bnNewGammaGrad cfg sq st og N S zeroFirst })

/-- `BatchNorm1d::backward`, checks in source order: rank-2/channel shape
check, empty upstream grad buffer, empty input cache, cache-size check; then
the common body WITHOUT zeroing the parameter grads (`zeroFirst = false`).
`grad_input` is reshaped to `[batch, num_features]`, its data merely resized,
its grad fully rewritten. -/
def bn1dBackward (cfg : BNConfig) (sq : ℚ → ℚ) (st : BNState)
    (gradOutput gradInput : Tensor) : Except TtieError (Tensor × BNState) :=
  if gradOutput.shape.length ≠ 2 ∨ gradOutput.shape.getD 1 0 ≠ cfg.numFeatures
  then .error .shapeMismatch
  else if gradOutput.grad.isEmpty then .error .gradEmpty
  else if st.inputData.isEmpty then .error .forwardNotCalled
  else if st.inputData.length ≠ gradOutput.shape.getD 0 0 * cfg.numFeatures then
    .error .cachedSizeMismatch
  else
    .ok ({ shape := [gradOutput.shape.getD 0 0, cfg.numFeatures],
           data := resizeList gradInput.data
             (gradOutput.shape.getD 0 0 * cfg.numFeatures),
           grad := (bnBackwardCore cfg sq st gradOutput.grad
             (gradOutput.shape.getD 0 0) 1 false).1 },
         (bnBackwardCore cfg sq st gradOutput.grad
           (gradOutput.shape.getD 0 0) 1 false).2)

/-- `BatchNorm2d::backward`, checks in source order: empty input cache,
rank-4/channel shape check, empty upstream grad buffer, cache-size check,
gamma/beta grad-buffer sizes; then the common body WITH the parameter grads
zeroed first (`zeroFirst = true`). -/
def bn2dBackward (cfg : BNConfig) (sq : ℚ → ℚ) (st : BNState)
    (gradOutput gradInput : Tensor) : Except TtieError (Tensor × BNState) :=
  if st.inputData.isEmpty then .error .forwardNotCalled
  else if gradOutput.shape.length ≠ 4 ∨
      gradOutput.shape.getD 1 0 ≠ cfg.numFeatures then .error .shapeMismatch
  else if gradOutput.grad.isEmpty then .error .gradEmpty
  else if st.inputData.length ≠ gradOutput.shape.getD 0 0 * cfg.numFeatures *
      (gradOutput.shape.getD 2 0 * gradOutput.shape.getD 3 0) then
    .error .cachedSizeMismatch
  else if cfg.affine ∧ (st.gammaGrad.length ≠ cfg.numFeatures ∨
      st.betaGrad.length ≠ cfg.numFeatures) then .error .paramGradSize
  else
    .ok ({ shape := gradOutput.shape,
           data := resizeList gradInput.data
             (gradOutput.shape.getD 0 0 * cfg.numFeatures *
               (gradOutput.shape.getD 2 0 * gradOutput.shape.getD 3 0)),
           grad := (bnBackwardCore cfg sq st gradOutput.grad
             (gradOutput.shape.getD 0 0)
             (gradOutput.shape.getD 2 0 * gradOutput.shape.getD 3 0) true).1 },
         (bnBackwardCore cfg sq st gradOutput.grad
           (gradOutput.shape.getD 0 0)
           (gradOutput.shape.getD 2 0 * gradOutput.shape.getD 3 0) true).2)

/-- `BatchNorm3d::backward`: exactly the 2d variant at rank 5
(`S = D*H*W`), with the parameter grads zeroed first. -/
def bn3dBackward (cfg : BNConfig) (sq : ℚ → ℚ) (st : BNState)
    (gradOutput gradInput : Tensor) : Except TtieError (Tensor × BNState) :=
  if st.inputData.isEmpty then .error .forwardNotCalled
  else if gradOutput.shape.length ≠ 5 ∨
      gradOutput.shape.getD 1 0 ≠ cfg.numFeatures then .error .shapeMismatch
  else if gradOutput.grad.isEmpty then .error .gradEmpty
  else if st.inputData.length ≠ gradOutput.shape.getD 0 0 * cfg.numFeatures *
      (gradOutput.shape.getD 2 0 * gradOutput.shape.getD 3 0 *
        gradOutput.shape.getD 4 0) then
    .error .cachedSizeMismatch
  else if cfg.affine ∧ (st.gammaGrad.length ≠ cfg.numFeatures ∨
      st.betaGrad.length ≠ cfg.numFeatures) then .error .paramGradSize
  else
    .ok ({ shape := gradOutput.shape,
           data := resizeList gradInput.data
             (gradOutput.shape.getD 0 0 * cfg.numFeatures *
               (gradOutput.shape.getD 2 0 * gradOutput.shape.getD 3 0 *
                 gradOutput.shape.getD 4 0)),
           grad := (bnBackwardCore cfg sq st gradOutput.grad
             (gradOutput.shape.getD 0 0)
             (gradOutput.shape.getD 2 0 * gradOutput.shape.getD 3 0 *
               gradOutput.shape.getD 4 0) true).1 },
         (bnBackwardCore cfg sq st gradOutput.grad
           (gradOutput.shape.getD 0 0)
           (gradOutput.shape.getD 2 0 * gradOutput.shape.getD 3 0 *
             gradOutput.shape.getD 4 0) true).2)

/-- Claim C10: every BatchNorm variant's backward fails when the upstream
tensor's grad buffer is empty, even though the input cache is populated and
the upstream tensor's shape is valid — the upstream gradient must live in the
grad buffer, not the data buffer, and an unsized grad is rejected, not read. -/
theorem batchnorm_backward_requires_grad :
    ∀ (cfg : BNConfig) (sq : ℚ → ℚ) (st : BNState) (go gi : Tensor),
      go.grad = [] → st.inputData ≠ [] →
      ((go.shape.length = 2 ∧ go.shape.getD 1 0 = cfg.numFeatures) →
        bn1dBackward cfg sq st go gi = .error .gradEmpty) ∧
      ((go.shape.length = 4 ∧ go.shape.getD 1 0 = cfg.numFeatures) →
        bn2dBackward cfg sq st go gi = .error .gradEmpty) ∧
      ((go.shape.length = 5 ∧ go.shape.getD 1 0 = cfg.numFeatures) →
        bn3dBackward cfg sq st go gi = .error .gradEmpty) := by
  intro cfg sq st go gi hg hc
  have hgb : go.grad.isEmpty = true := by simp [hg]
  have hcb : st.inputData.isEmpty = false := by simp [hc]
  refine ⟨?_, ?_, ?_⟩
  · intro h
    simp only [bn1dBackward]
    rw [if_neg (by push_neg; exact h), if_pos hgb]
  · intro h
    simp only [bn2dBackward]
    rw [if_neg (by simp [hcb]), if_neg (by push_neg; exact h), if_pos hgb]
  · intro h
    simp only [bn3dBackward]
    rw [if_neg (by simp [hcb]), if_neg (by push_neg; exact h), if_pos hgb]

/-- A concrete BatchNorm configuration for the witnesses: one feature,
`eps = 1/100000`, `momentum = 1/10`, affine, tracking running stats. -/
def bnCfgW : BNConfig := ⟨1, 1 / 100000, 1 / 10, true, true⟩

/-- A concrete BatchNorm state: cached two-element input, sized parameter
buffers, past the first update. -/
def bnStW : BNState := ⟨[2], [5], [0], [7], [0], [0], [1, 3], false⟩

/-- Witness for C10: concrete upstream tensors of valid shape and empty grad
for each rank. -/
theorem batchnorm_backward_requires_grad_witness :
    bn1dBackward bnCfgW (fun q => q) bnStW ⟨[2, 1], [], []⟩ ⟨[], [], []⟩ =
      .error .gradEmpty ∧
    bn2dBackward bnCfgW (fun q => q) bnStW ⟨[1, 1, 1, 2], [], []⟩ ⟨[], [], []⟩ =
      .error .gradEmpty ∧
    bn3dBackward bnCfgW (fun q => q) bnStW ⟨[1, 1, 1, 1, 2], [], []⟩
        ⟨[], [], []⟩ =
      .error .gradEmpty :=
  ⟨(batchnorm_backward_requires_grad bnCfgW (fun q => q) bnStW ⟨[2, 1], [], []⟩
      ⟨[], [], []⟩ rfl (by decide)).1 (by decide),
   (batchnorm_backward_requires_grad bnCfgW (fun q => q) bnStW
      ⟨[1, 1, 1, 2], [], []⟩ ⟨[], [], []⟩ rfl (by decide)).2.1 (by decide),
   (batchnorm_backward_requires_grad bnCfgW (fun q => q) bnStW
      ⟨[1, 1, 1, 1, 2], [], []⟩ ⟨[], [], []⟩ rfl (by decide)).2.2 (by decide)⟩

/-- Claim C3: for every BatchNorm variant constructed with
`track_running_stats`, the very first forward call assigns
`running_mean`/`running_var` per channel directly from the batch mean and the
biased (divide-by-count) batch variance, while every subsequent call blends
`running = (1-momentum)·running + momentum·batch_stat`; the `first_update`
flag selects the case and is cleared by every call. -/
theorem batchnorm_running_stats :
    ∀ (cfg : BNConfig) (sq : ℚ → ℚ) (st : BNState) (input output : Tensor),
      cfg.trackRunningStats = true →
      (∀ N, input.shape = [N, cfg.numFeatures] → 0 < N →
        0 < cfg.numFeatures →
        ∃ res, bn1dForward cfg sq st input output = .ok res ∧
          res.2.firstUpdate = false ∧
          ∀ c < cfg.numFeatures,
            (res.2.runningMean.getD c 0 =
              if st.firstUpdate then bnMean input.data cfg.numFeatures 1 N c
              else (1 - cfg.momentum) * st.runningMean.getD c 0 +
                cfg.momentum * bnMean input.data cfg.numFeatures 1 N c) ∧
            (res.2.runningVar.getD c 0 =
              if st.firstUpdate then bnVar input.data cfg.numFeatures 1 N c
              else (1 - cfg.momentum) * st.runningVar.getD c 0 +
                cfg.momentum * bnVar input.data cfg.numFeatures 1 N c)) ∧
      (∀ N H W, input.shape = [N, cfg.numFeatures, H, W] →
        input.validate_shape = true →
        input.data.length = prodShape input.shape →
        ∃ res, bn2dForward cfg sq st input output = .ok res ∧
          res.2.firstUpdate = false ∧
          ∀ c < cfg.numFeatures,
            (res.2.runningMean.getD c 0 =
              if st.firstUpdate then
                bnMean input.data cfg.numFeatures (H * W) N c
              else (1 - cfg.momentum) * st.runningMean.getD c 0 +
                cfg.momentum * bnMean input.data cfg.numFeatures (H * W) N c) ∧
            (res.2.runningVar.getD c 0 =
              if st.firstUpdate then
                bnVar input.data cfg.numFeatures (H * W) N c
              else (1 - cfg.momentum) * st.runningVar.getD c 0 +
                cfg.momentum * bnVar input.data cfg.numFeatures (H * W) N c)) ∧
      (∀ N D H W, input.shape = [N, cfg.numFeatures, D, H, W] →
        input.validate_shape = true →
        input.data.length = prodShape input.shape →
        ∃ res, bn3dForward cfg sq st input output = .ok res ∧
          res.2.firstUpdate = false ∧
          ∀ c < cfg.numFeatures,
            (res.2.runningMean.getD c 0 =
              if st.firstUpdate then
                bnMean input.data cfg.numFeatures (D * H * W) N c
              else (1 - cfg.momentum) * st.runningMean.getD c 0 +
                cfg.momentum *
                  bnMean input.data cfg.numFeatures (D * H * W) N c) ∧
            (res.2.runningVar.getD c 0 =
              if st.firstUpdate then
                bnVar input.data cfg.numFeatures (D * H * W) N c
              else (1 - cfg.momentum) * st.runningVar.getD c 0 +
                cfg.momentum *
                  bnVar input.data cfg.numFeatures (D * H * W) N c)) := by
  intro cfg sq st input output htrack
  refine ⟨?_, ?_, ?_⟩
  · intro N hshape hN hC
    have c1 : ¬ (input.shape.length ≠ 2 ∨
        input.shape.getD 1 0 ≠ cfg.numFeatures) := by
      rw [hshape]
      simp
    have c2 : ¬ (input.shape.getD 0 0 = 0 ∨ cfg.numFeatures = 0) := by
      rw [hshape]
      simp only [List.getD_cons_zero]
      omega
    simp only [bn1dForward]
    rw [if_neg c1, if_neg c2]
    refine ⟨_, rfl, rfl, ?_⟩
    intro c hc
    have hN0 : input.shape.getD 0 0 = N := by rw [hshape]; rfl
    constructor
    · simp only [bnForwardCore, bnNewRunningMean, htrack, hN0, if_true]
      rw [getD_map_range _ _ _ hc]
    · simp only [bnForwardCore, bnNewRunningVar, htrack, hN0, if_true]
      rw [getD_map_range _ _ _ hc]
  · intro N H W hshape hval hlen
    have c1 : ¬ (input.shape.length ≠ 4) := by
      rw [hshape]
      simp
    have c2 : ¬ (input.shape.getD 1 0 ≠ cfg.numFeatures) := by
      rw [hshape]
      simp
    have c3 : ¬ (¬ input.validate_shape) := by simp [hval]
    have c4 : ¬ (input.data.length ≠ prodShape input.shape) := by simp [hlen]
    simp only [bn2dForward]
    rw [if_neg c1, if_neg c2, if_neg c3, if_neg c4]
    refine ⟨_, rfl, rfl, ?_⟩
    intro c hc
    have hN0 : input.shape.getD 0 0 = N := by rw [hshape]; rfl
    have hS0 : input.shape.getD 2 0 * input.shape.getD 3 0 = H * W := by
      rw [hshape]; rfl
    constructor
    · simp only [bnForwardCore, bnNewRunningMean, htrack, hN0, hS0, if_true]
      rw [getD_map_range _ _ _ hc]
    · simp only [bnForwardCore, bnNewRunningVar, htrack, hN0, hS0, if_true]
      rw [getD_map_range _ _ _ hc]
  · intro N D H W hshape hval hlen
    have c1 : ¬ (input.shape.length ≠ 5) := by
      rw [hshape]
      simp
    have c2 : ¬ (input.shape.getD 1 0 ≠ cfg.numFeatures) := by
      rw [hshape]
      simp
    have c3 : ¬ (¬ input.validate_shape) := by simp [hval]
    have c4 : ¬ (input.data.length ≠ prodShape input.shape) := by simp [hlen]
    simp only [bn3dForward]
    rw [if_neg c1, if_neg c2, if_neg c3, if_neg c4]
    refine ⟨_, rfl, rfl, ?_⟩
    intro c hc
    have hN0 : input.shape.getD 0 0 = N := by rw [hshape]; rfl
    have hS0 : input.shape.getD 2 0 * input.shape.getD 3 0 *
        input.shape.getD 4 0 = D * H * W := by
      rw [hshape]; rfl
    constructor
    · simp only [bnForwardCore, bnNewRunningMean, htrack, hN0, hS0, if_true]
      rw [getD_map_range _ _ _ hc]
    · simp only [bnForwardCore, bnNewRunningVar, htrack, hN0, hS0, if_true]
      rw [getD_map_range _ _ _ hc]

/-- The identity standing in for `std::sqrt` in concrete witnesses (the
claims hold for every square-root routine). -/
def bnSqId : ℚ → ℚ := fun q => q

/-- A freshly constructed BatchNorm state over `bnCfgW` with `gamma ≡ 1`. -/
def bnStFresh : BNState := bnInit bnCfgW (fun _ => 1)

/-- Concrete rank-2 input `[[1], [3]]` (two samples, one channel). -/
def bnIn1 : Tensor := ⟨[2, 1], [1, 3], []⟩

/-- Concrete rank-4 input of shape `[1, 1, 1, 2]`. -/
def bnIn2 : Tensor := ⟨[1, 1, 1, 2], [1, 3], []⟩

/-- Concrete rank-5 input of shape `[1, 1, 1, 1, 2]`. -/
def bnIn3 : Tensor := ⟨[1, 1, 1, 1, 2], [1, 3], []⟩

/-- Witness for C3 at a fresh state and concrete inputs of every rank. -/
theorem batchnorm_running_stats_witness :
    (∃ res, bn1dForward bnCfgW bnSqId bnStFresh bnIn1 ⟨[], [], []⟩ = .ok res ∧
      res.2.firstUpdate = false ∧
      ∀ c < bnCfgW.numFeatures,
        (res.2.runningMean.getD c 0 =
          if bnStFresh.firstUpdate then
            bnMean bnIn1.data bnCfgW.numFeatures 1 2 c
          else (1 - bnCfgW.momentum) * bnStFresh.runningMean.getD c 0 +
            bnCfgW.momentum * bnMean bnIn1.data bnCfgW.numFeatures 1 2 c) ∧
        (res.2.runningVar.getD c 0 =
          if bnStFresh.firstUpdate then
            bnVar bnIn1.data bnCfgW.numFeatures 1 2 c
          else (1 - bnCfgW.momentum) * bnStFresh.runningVar.getD c 0 +
            bnCfgW.momentum * bnVar bnIn1.data bnCfgW.numFeatures 1 2 c)) ∧
    (∃ res, bn2dForward bnCfgW bnSqId bnStFresh bnIn2 ⟨[], [], []⟩ = .ok res ∧
      res.2.firstUpdate = false ∧
      ∀ c < bnCfgW.numFeatures,
        (res.2.runningMean.getD c 0 =
          if bnStFresh.firstUpdate then
            bnMean bnIn2.data bnCfgW.numFeatures (1 * 2) 1 c
          else (1 - bnCfgW.momentum) * bnStFresh.runningMean.getD c 0 +
            bnCfgW.momentum *
              bnMean bnIn2.data bnCfgW.numFeatures (1 * 2) 1 c) ∧
        (res.2.runningVar.getD c 0 =
          if bnStFresh.firstUpdate then
            bnVar bnIn2.data bnCfgW.numFeatures (1 * 2) 1 c
          else (1 - bnCfgW.momentum) * bnStFresh.runningVar.getD c 0 +
            bnCfgW.momentum *
              bnVar bnIn2.data bnCfgW.numFeatures (1 * 2) 1 c)) ∧
    (∃ res, bn3dForward bnCfgW bnSqId bnStFresh bnIn3 ⟨[], [], []⟩ = .ok res ∧
      res.2.firstUpdate = false ∧
      ∀ c < bnCfgW.numFeatures,
        (res.2.runningMean.getD c 0 =
          if bnStFresh.firstUpdate then
            bnMean bnIn3.data bnCfgW.numFeatures (1 * 1 * 2) 1 c
          else (1 - bnCfgW.momentum) * bnStFresh.runningMean.getD c 0 +
            bnCfgW.momentum *
              bnMean bnIn3.data bnCfgW.numFeatures (1 * 1 * 2) 1 c) ∧
        (res.2.runningVar.getD c 0 =
          if bnStFresh.firstUpdate then
            bnVar bnIn3.data bnCfgW.numFeatures (1 * 1 * 2) 1 c
          else (1 - bnCfgW.momentum) * bnStFresh.runningVar.getD c 0 +
            bnCfgW.momentum *
              bnVar bnIn3.data bnCfgW.numFeatures (1 * 1 * 2) 1 c)) :=
  ⟨(batchnorm_running_stats bnCfgW bnSqId bnStFresh bnIn1 ⟨[], [], []⟩ rfl).1
      2 rfl (by decide) (by decide),
   (batchnorm_running_stats bnCfgW bnSqId bnStFresh bnIn2 ⟨[], [], []⟩ rfl).2.1
      1 1 2 rfl (by decide) (by decide),
   (batchnorm_running_stats bnCfgW bnSqId bnStFresh bnIn3 ⟨[], [], []⟩ rfl).2.2
      1 1 1 2 rfl (by decide) (by decide)⟩

/-- Claim C6: for affine BatchNorm layers, the 2d and 3d backward zero
`gamma.grad`/`beta.grad` first, so afterwards they hold exactly the
current-call per-channel sums `Σ dy·x_hat` and `Σ dy` regardless of prior
contents, while the 1d backward does not zero them, so afterwards they hold
the prior contents plus those sums. -/
theorem batchnorm_param_grad_policy :
    ∀ (cfg : BNConfig) (sq : ℚ → ℚ) (st : BNState) (go gi : Tensor),
      cfg.affine = true →
      go.grad ≠ [] → st.inputData ≠ [] →
      (∀ N, go.shape = [N, cfg.numFeatures] →
        st.inputData.length = N * cfg.numFeatures →
        ∃ res, bn1dBackward cfg sq st go gi = .ok res ∧
          ∀ c < cfg.numFeatures,
            (res.2.betaGrad.getD c 0 =
              st.betaGrad.getD c 0 +
                ∑ q ∈ Finset.range (N * 1),
                  go.grad.getD (bnIdx cfg.numFeatures 1 c (q / 1) (q % 1)) 0) ∧
            (res.2.gammaGrad.getD c 0 =
              st.gammaGrad.getD c 0 +
                ∑ q ∈ Finset.range (N * 1),
                  go.grad.getD (bnIdx cfg.numFeatures 1 c (q / 1) (q % 1)) 0 *
                    bnXhat sq cfg.eps st.inputData cfg.numFeatures 1 N c
                      (bnIdx cfg.numFeatures 1 c (q / 1) (q % 1)))) ∧
      (∀ N H W, go.shape = [N, cfg.numFeatures, H, W] →
        st.inputData.length = N * cfg.numFeatures * (H * W) →
        st.gammaGrad.length = cfg.numFeatures →
        st.betaGrad.length = cfg.numFeatures →
        ∃ res, bn2dBackward cfg sq st go gi = .ok res ∧
          ∀ c < cfg.numFeatures,
            (res.2.betaGrad.getD c 0 =
              ∑ q ∈ Finset.range (N * (H * W)),
                go.grad.getD
                  (bnIdx cfg.numFeatures (H * W) c (q / (H * W))
                    (q % (H * W))) 0) ∧
            (res.2.gammaGrad.getD c 0 =
              ∑ q ∈ Finset.range (N * (H * W)),
                go.grad.getD
                  (bnIdx cfg.numFeatures (H * W) c (q / (H * W))
                    (q % (H * W))) 0 *
                  bnXhat sq cfg.eps st.inputData cfg.numFeatures (H * W) N c
                    (bnIdx cfg.numFeatures (H * W) c (q / (H * W))
                      (q % (H * W))))) ∧
      (∀ N D H W, go.shape = [N, cfg.numFeatures, D, H, W] →
        st.inputData.length = N * cfg.numFeatures * (D * H * W) →
        st.gammaGrad.length = cfg.numFeatures →
        st.betaGrad.length = cfg.numFeatures →
        ∃ res, bn3dBackward cfg sq st go gi = .ok res ∧
          ∀ c < cfg.numFeatures,
            (res.2.betaGrad.getD c 0 =
              ∑ q ∈ Finset.range (N * (D * H * W)),
                go.grad.getD
                  (bnIdx cfg.numFeatures (D * H * W) c (q / (D * H * W))
                    (q % (D * H * W))) 0) ∧
            (res.2.gammaGrad.getD c 0 =
              ∑ q ∈ Finset.range (N * (D * H * W)),
                go.grad.getD
                  (bnIdx cfg.numFeatures (D * H * W) c (q / (D * H * W))
                    (q % (D * H * W))) 0 *
                  bnXhat sq cfg.eps st.inputData cfg.numFeatures (D * H * W) N
                    c
                    (bnIdx cfg.numFeatures (D * H * W) c (q / (D * H * W))
                      (q % (D * H * W))))) := by
  intro cfg sq st go gi haff hgrad hcache
  have hge : ¬ (go.grad.isEmpty = true) := by simp [hgrad]
  have hce : ¬ (st.inputData.isEmpty = true) := by simp [hcache]
  refine ⟨?_, ?_, ?_⟩
  · intro N hshape hlen
    have hg0 : go.shape.getD 0 0 = N := by rw [hshape]; rfl
    have c1 : ¬ (go.shape.length ≠ 2 ∨
        go.shape.getD 1 0 ≠ cfg.numFeatures) := by
      rw [hshape]
      simp
    have c4 : ¬ (st.inputData.length ≠
        go.shape.getD 0 0 * cfg.numFeatures) := by
      rw [hg0]
      exact fun hne => hne hlen
    simp only [bn1dBackward]
    rw [if_neg c1, if_neg hge, if_neg hce, if_neg c4]
    refine ⟨_, rfl, ?_⟩
    intro c hc
    constructor
    · simp only [bnBackwardCore, bnNewBetaGrad, haff, if_true, hg0]
      rw [getD_map_range _ _ _ hc]
      rw [foldl_add_eq_sum
        (fun q => go.grad.getD (bnIdx cfg.numFeatures 1 c (q / 1) (q % 1)) 0)
        _ (N * 1)]
      simp
    · simp only [bnBackwardCore, bnNewGammaGrad, haff, if_true, hg0]
      rw [getD_map_range _ _ _ hc]
      rw [foldl_add_eq_sum
        (fun q => go.grad.getD (bnIdx cfg.numFeatures 1 c (q / 1) (q % 1)) 0 *
          bnXhat sq cfg.eps st.inputData cfg.numFeatures 1 N c
            (bnIdx cfg.numFeatures 1 c (q / 1) (q % 1)))
        _ (N * 1)]
      simp
  · intro N H W hshape hlen hgl hbl
    have hg0 : go.shape.getD 0 0 = N := by rw [hshape]; rfl
    have hg2 : go.shape.getD 2 0 = H := by rw [hshape]; rfl
    have hg3 : go.shape.getD 3 0 = W := by rw [hshape]; rfl
    have c1 : ¬ (go.shape.length ≠ 4 ∨
        go.shape.getD 1 0 ≠ cfg.numFeatures) := by
      rw [hshape]
      simp
    have c4 : ¬ (st.inputData.length ≠
        go.shape.getD 0 0 * cfg.numFeatures *
          (go.shape.getD 2 0 * go.shape.getD 3 0)) := by
      rw [hg0, hg2, hg3]
      exact fun hne => hne hlen
    have c5 : ¬ (cfg.affine = true ∧ (st.gammaGrad.length ≠ cfg.numFeatures ∨
        st.betaGrad.length ≠ cfg.numFeatures)) := by
      simp [hgl, hbl]
    simp only [bn2dBackward]
    rw [if_neg hce, if_neg c1, if_neg hge, if_neg c4, if_neg c5]
    refine ⟨_, rfl, ?_⟩
    intro c hc
    constructor
    · simp only [bnBackwardCore, bnNewBetaGrad, haff, if_true, hg0, hg2, hg3]
      rw [getD_map_range _ _ _ hc]
      rw [foldl_add_eq_sum
        (fun q => go.grad.getD
          (bnIdx cfg.numFeatures (H * W) c (q / (H * W)) (q % (H * W))) 0)
        _ (N * (H * W))]
      simp
    · simp only [bnBackwardCore, bnNewGammaGrad, haff, if_true, hg0, hg2, hg3]
      rw [getD_map_range _ _ _ hc]
      rw [foldl_add_eq_sum
        (fun q => go.grad.getD
          (bnIdx cfg.numFeatures (H * W) c (q / (H * W)) (q % (H * W))) 0 *
          bnXhat sq cfg.eps st.inputData cfg.numFeatures (H * W) N c
            (bnIdx cfg.numFeatures (H * W) c (q / (H * W)) (q % (H * W))))
        _ (N * (H * W))]
      simp
  · intro N D H W hshape hlen hgl hbl
    have hg0 : go.shape.getD 0 0 = N := by rw [hshape]; rfl
    have hg2 : go.shape.getD 2 0 = D := by rw [hshape]; rfl
    have hg3 : go.shape.getD 3 0 = H := by rw [hshape]; rfl
    have hg4 : go.shape.getD 4 0 = W := by rw [hshape]; rfl
    have c1 : ¬ (go.shape.length ≠ 5 ∨
        go.shape.getD 1 0 ≠ cfg.numFeatures) := by
      rw [hshape]
      simp
    have c4 : ¬ (st.inputData.length ≠
        go.shape.getD 0 0 * cfg.numFeatures *
          (go.shape.getD 2 0 * go.shape.getD 3 0 * go.shape.getD 4 0)) := by
      rw [hg0, hg2, hg3, hg4]
      exact fun hne => hne hlen
    have c5 : ¬ (cfg.affine = true ∧ (st.gammaGrad.length ≠ cfg.numFeatures ∨
        st.betaGrad.length ≠ cfg.numFeatures)) := by
      simp [hgl, hbl]
    simp only [bn3dBackward]
    rw [if_neg hce, if_neg c1, if_neg hge, if_neg c4, if_neg c5]
    refine ⟨_, rfl, ?_⟩
    intro c hc
    constructor
    · simp only [bnBackwardCore, bnNewBetaGrad, haff, if_true, hg0, hg2, hg3,
        hg4]
      rw [getD_map_range _ _ _ hc]
      rw [foldl_add_eq_sum
        (fun q => go.grad.getD
          (bnIdx cfg.numFeatures (D * H * W) c (q / (D * H * W))
            (q % (D * H * W))) 0)
        _ (N * (D * H * W))]
      simp
    · simp only [bnBackwardCore, bnNewGammaGrad, haff, if_true, hg0, hg2, hg3,
        hg4]
      rw [getD_map_range _ _ _ hc]
      rw [foldl_add_eq_sum
        (fun q => go.grad.getD
          (bnIdx cfg.numFeatures (D * H * W) c (q / (D * H * W))
            (q % (D * H * W))) 0 *
          bnXhat sq cfg.eps st.inputData cfg.numFeatures (D * H * W) N c
            (bnIdx cfg.numFeatures (D * H * W) c (q / (D * H * W))
              (q % (D * H * W))))
        _ (N * (D * H * W))]
      simp

/-- Rank-2 upstream gradient `[[1], [1]]` carried in the grad buffer. -/
def bnOg1 : Tensor := ⟨[2, 1], [], [1, 1]⟩

/-- Rank-4 upstream gradient of shape `[1, 1, 1, 2]`. -/
def bnOg2 : Tensor := ⟨[1, 1, 1, 2], [], [1, 1]⟩

/-- Rank-5 upstream gradient of shape `[1, 1, 1, 1, 2]`. -/
def bnOg3 : Tensor := ⟨[1, 1, 1, 1, 2], [], [1, 1]⟩

/-- Witness for C6 at the concrete affine state `bnStW` (prior grads `5`/`7`)
and unit upstream gradients of every rank. -/
theorem batchnorm_param_grad_policy_witness :
    (∃ res, bn1dBackward bnCfgW bnSqId bnStW bnOg1 ⟨[], [], []⟩ = .ok res ∧
      ∀ c < bnCfgW.numFeatures,
        (res.2.betaGrad.getD c 0 =
          bnStW.betaGrad.getD c 0 +
            ∑ q ∈ Finset.range (2 * 1),
              bnOg1.grad.getD (bnIdx bnCfgW.numFeatures 1 c (q / 1) (q % 1))
                0) ∧
        (res.2.gammaGrad.getD c 0 =
          bnStW.gammaGrad.getD c 0 +
            ∑ q ∈ Finset.range (2 * 1),
              bnOg1.grad.getD (bnIdx bnCfgW.numFeatures 1 c (q / 1) (q % 1))
                  0 *
                bnXhat bnSqId bnCfgW.eps bnStW.inputData bnCfgW.numFeatures 1
                  2 c (bnIdx bnCfgW.numFeatures 1 c (q / 1) (q % 1)))) ∧
    (∃ res, bn2dBackward bnCfgW bnSqId bnStW bnOg2 ⟨[], [], []⟩ = .ok res ∧
      ∀ c < bnCfgW.numFeatures,
        (res.2.betaGrad.getD c 0 =
          ∑ q ∈ Finset.range (1 * (1 * 2)),
            bnOg2.grad.getD
              (bnIdx bnCfgW.numFeatures (1 * 2) c (q / (1 * 2)) (q % (1 * 2)))
              0) ∧
        (res.2.gammaGrad.getD c 0 =
          ∑ q ∈ Finset.range (1 * (1 * 2)),
            bnOg2.grad.getD
                (bnIdx bnCfgW.numFeatures (1 * 2) c (q / (1 * 2))
                  (q % (1 * 2))) 0 *
              bnXhat bnSqId bnCfgW.eps bnStW.inputData bnCfgW.numFeatures
                (1 * 2) 1 c
                (bnIdx bnCfgW.numFeatures (1 * 2) c (q / (1 * 2))
                  (q % (1 * 2))))) ∧
    (∃ res, bn3dBackward bnCfgW bnSqId bnStW bnOg3 ⟨[], [], []⟩ = .ok res ∧
      ∀ c < bnCfgW.numFeatures,
        (res.2.betaGrad.getD c 0 =
          ∑ q ∈ Finset.range (1 * (1 * 1 * 2)),
            bnOg3.grad.getD
              (bnIdx bnCfgW.numFeatures (1 * 1 * 2) c (q / (1 * 1 * 2))
                (q % (1 * 1 * 2))) 0) ∧
        (res.2.gammaGrad.getD c 0 =
          ∑ q ∈ Finset.range (1 * (1 * 1 * 2)),
            bnOg3.grad.getD
                (bnIdx bnCfgW.numFeatures (1 * 1 * 2) c (q / (1 * 1 * 2))
                  (q % (1 * 1 * 2))) 0 *
              bnXhat bnSqId bnCfgW.eps bnStW.inputData bnCfgW.numFeatures
                (1 * 1 * 2) 1 c
                (bnIdx bnCfgW.numFeatures (1 * 1 * 2) c (q / (1 * 1 * 2))
                  (q % (1 * 1 * 2))))) :=
  ⟨(batchnorm_param_grad_policy bnCfgW bnSqId bnStW bnOg1 ⟨[], [], []⟩ rfl
      (by decide) (by decide)).1 2 rfl (by decide),
   (batchnorm_param_grad_policy bnCfgW bnSqId bnStW bnOg2 ⟨[], [], []⟩ rfl
      (by decide) (by decide)).2.1 1 1 2 rfl (by decide) (by decide)
     (by decide),
   (batchnorm_param_grad_policy bnCfgW bnSqId bnStW bnOg3 ⟨[], [], []⟩ rfl
      (by decide) (by decide)).2.2 1 1 1 2 rfl (by decide) (by decide)
     (by decide)⟩

theorem bnChan_bnIdx (C S c n p : Nat) (hc : c < C) (hp : p < S) :
    bnChan C S (bnIdx C S c n p) = c := by
  unfold bnChan bnIdx
  rw [Nat.add_assoc, Nat.mul_comm n (C * S), Nat.mul_add_mod,
    Nat.mod_eq_of_lt (idx_lt C S c p hc hp), (idx_decode S c p hp).1]

theorem bnIdx_lt (C S N c n p : Nat) (hn : n < N) (hc : c < C) (hp : p < S) :
    bnIdx C S c n p < N * C * S := by
  unfold bnIdx
  have h1 : c * S + p < C * S := idx_lt C S c p hc hp
  have h2 : n * (C * S) + (c * S + p) < N * (C * S) :=
    idx_lt N (C * S) n (c * S + p) hn h1
  rw [Nat.mul_assoc]
  omega

theorem bnMean_const (x : List ℚ) (C S N c : Nat) (v : ℚ)
    (h : ∀ q < N * S, x.getD (bnIdx C S c (q / S) (q % S)) 0 = v)
    (hpos : 0 < N * S) :
    bnMean x C S N c = v := by
  unfold bnMean
  rw [foldl_add_eq_sum (fun q => x.getD (bnIdx C S c (q / S) (q % S)) 0) 0
    (N * S), zero_add]
  rw [Finset.sum_congr rfl (fun q hq => h q (Finset.mem_range.mp hq))]
  rw [Finset.sum_const, Finset.card_range, nsmul_eq_mul]
  rw [mul_div_cancel_left₀ v (Nat.cast_ne_zero.mpr hpos.ne')]

theorem bnInit_beta (cfg : BNConfig) (g : Nat → ℚ) (c : Nat) :
    (bnInit cfg g).betaData.getD c 0 = 0 := by
  unfold bnInit
  by_cases h : cfg.affine
  · simp only [h, if_true]
    rw [List.getD_eq_getElem?_getD, List.getElem?_replicate]
    split
    · rfl
    · rfl
  · simp [h]

/-- Claim C9: a freshly constructed BatchNorm layer of any rank (affine or
not) maps a channel whose input elements are all equal to output exactly 0 at
every position of that channel: the channel mean equals the common value, so
`x_hat` collapses to 0 whatever `sqrt` returns, and `beta` is initialised to
0.  A position inside channel `c` is addressed as `bnIdx C S c n p` with `p`
the flattened within-sample offset (`p = h*W + w` for 2d,
`p = d*H*W + h*W + w` for 3d, `p = 0` for 1d). -/
theorem batchnorm_constant_channel_zero :
    ∀ (cfg : BNConfig) (sq : ℚ → ℚ) (g : Nat → ℚ) (input output : Tensor)
      (c : Nat) (v : ℚ), c < cfg.numFeatures →
      (∀ N, input.shape = [N, cfg.numFeatures] → 0 < N →
        (∀ b < N, input.data.getD (bnIdx cfg.numFeatures 1 c b 0) 0 = v) →
        ∃ res, bn1dForward cfg sq (bnInit cfg g) input output = .ok res ∧
          ∀ b < N, res.1.data.getD (bnIdx cfg.numFeatures 1 c b 0) 0 = 0) ∧
      (∀ N H W, input.shape = [N, cfg.numFeatures, H, W] →
        input.validate_shape = true →
        input.data.length = prodShape input.shape →
        (∀ n < N, ∀ p < H * W,
          input.data.getD (bnIdx cfg.numFeatures (H * W) c n p) 0 = v) →
        ∃ res, bn2dForward cfg sq (bnInit cfg g) input output = .ok res ∧
          ∀ n < N, ∀ p < H * W,
            res.1.data.getD (bnIdx cfg.numFeatures (H * W) c n p) 0 = 0) ∧
      (∀ N D H W, input.shape = [N, cfg.numFeatures, D, H, W] →
        input.validate_shape = true →
        input.data.length = prodShape input.shape →
        (∀ n < N, ∀ p < D * H * W,
          input.data.getD (bnIdx cfg.numFeatures (D * H * W) c n p) 0 = v) →
        ∃ res, bn3dForward cfg sq (bnInit cfg g) input output = .ok res ∧
          ∀ n < N, ∀ p < D * H * W,
            res.1.data.getD (bnIdx cfg.numFeatures (D * H * W) c n p) 0 = 0) := by
  intro cfg sq g input output c v hc
  have hC : 0 < cfg.numFeatures := Nat.lt_of_le_of_lt (Nat.zero_le c) hc
  refine ⟨?_, ?_, ?_⟩
  · intro N hshape hN hconst
    have c1 : ¬ (input.shape.length ≠ 2 ∨
        input.shape.getD 1 0 ≠ cfg.numFeatures) := by
      rw [hshape]
      simp
    have c2 : ¬ (input.shape.getD 0 0 = 0 ∨ cfg.numFeatures = 0) := by
      rw [hshape]
      simp only [List.getD_cons_zero]
      omega
    have hN0 : input.shape.getD 0 0 = N := by rw [hshape]; rfl
    simp only [bn1dForward]
    rw [if_neg c1, if_neg c2]
    refine ⟨_, rfl, ?_⟩
    intro b hb
    have hmean : bnMean input.data cfg.numFeatures 1 N c = v := by
      apply bnMean_const
      · intro q hq
        have hq1 : bnIdx cfg.numFeatures 1 c (q / 1) (q % 1) =
            bnIdx cfg.numFeatures 1 c q 0 := by
          rw [Nat.div_one, Nat.mod_one]
        rw [hq1]
        exact hconst q (by omega)
      · omega
    simp only [hN0, bnForwardCore, bnForwardData]
    rw [getD_map_range _ _ _
      (bnIdx_lt cfg.numFeatures 1 N c b 0 hb hc Nat.one_pos)]
    simp only [bnOutEntry, bnChan_bnIdx cfg.numFeatures 1 c b 0 hc Nat.one_pos,
      bnXhat, hmean, hconst b hb, sub_self, zero_mul]
    by_cases haff : cfg.affine
    · simp only [haff, if_true, mul_zero, zero_add]
      exact bnInit_beta cfg g c
    · simp [haff]
  · intro N H W hshape hval hlen hconst
    have c1 : ¬ (input.shape.length ≠ 4) := by
      rw [hshape]
      simp
    have c2 : ¬ (input.shape.getD 1 0 ≠ cfg.numFeatures) := by
      rw [hshape]
      simp
    have c3 : ¬ (¬ input.validate_shape) := by simp [hval]
    have c4 : ¬ (input.data.length ≠ prodShape input.shape) := by simp [hlen]
    have hN0 : input.shape.getD 0 0 = N := by rw [hshape]; rfl
    have hS0 : input.shape.getD 2 0 * input.shape.getD 3 0 = H * W := by
      rw [hshape]; rfl
    simp only [bn2dForward]
    rw [if_neg c1, if_neg c2, if_neg c3, if_neg c4]
    refine ⟨_, rfl, ?_⟩
    intro n hn p hp
    have hS : 0 < H * W := Nat.lt_of_le_of_lt (Nat.zero_le p) hp
    have hmean : bnMean input.data cfg.numFeatures (H * W) N c = v := by
      apply bnMean_const
      · intro q hq
        exact hconst (q / (H * W)) ((Nat.div_lt_iff_lt_mul hS).mpr
          (by omega)) (q % (H * W)) (Nat.mod_lt q hS)
      · exact Nat.mul_pos (by omega) hS
    simp only [hN0, hS0, bnForwardCore, bnForwardData]
    rw [getD_map_range _ _ _
      (bnIdx_lt cfg.numFeatures (H * W) N c n p hn hc hp)]
    simp only [bnOutEntry, bnChan_bnIdx cfg.numFeatures (H * W) c n p hc hp,
      bnXhat, hmean, hconst n hn p hp, sub_self, zero_mul]
    by_cases haff : cfg.affine
    · simp only [haff, if_true, mul_zero, zero_add]
      exact bnInit_beta cfg g c
    · simp [haff]
  · intro N D H W hshape hval hlen hconst
    have c1 : ¬ (input.shape.length ≠ 5) := by
      rw [hshape]
      simp
    have c2 : ¬ (input.shape.getD 1 0 ≠ cfg.numFeatures) := by
      rw [hshape]
      simp
    have c3 : ¬ (¬ input.validate_shape) := by simp [hval]
    have c4 : ¬ (input.data.length ≠ prodShape input.shape) := by simp [hlen]
    have hN0 : input.shape.getD 0 0 = N := by rw [hshape]; rfl
    have hS0 : input.shape.getD 2 0 * input.shape.getD 3 0 *
        input.shape.getD 4 0 = D * H * W := by
      rw [hshape]; rfl
    simp only [bn3dForward]
    rw [if_neg c1, if_neg c2, if_neg c3, if_neg c4]
    refine ⟨_, rfl, ?_⟩
    intro n hn p hp
    have hS : 0 < D * H * W := Nat.lt_of_le_of_lt (Nat.zero_le p) hp
    have hmean : bnMean input.data cfg.numFeatures (D * H * W) N c = v := by
      apply bnMean_const
      · intro q hq
        exact hconst (q / (D * H * W)) ((Nat.div_lt_iff_lt_mul hS).mpr
          (by omega)) (q % (D * H * W)) (Nat.mod_lt q hS)
      · exact Nat.mul_pos (by omega) hS
    simp only [hN0, hS0, bnForwardCore, bnForwardData]
    rw [getD_map_range _ _ _
      (bnIdx_lt cfg.numFeatures (D * H * W) N c n p hn hc hp)]
    simp only [bnOutEntry,
      bnChan_bnIdx cfg.numFeatures (D * H * W) c n p hc hp,
      bnXhat, hmean, hconst n hn p hp, sub_self, zero_mul]
    by_cases haff : cfg.affine
    · simp only [haff, if_true, mul_zero, zero_add]
      exact bnInit_beta cfg g c
    · simp [haff]

/-- Witness for C9: fresh layers over `bnCfgW` fed constant-channel inputs
(`5` everywhere) of every rank produce output 0 at every channel position. -/
theorem batchnorm_constant_channel_zero_witness :
    (∃ res, bn1dForward bnCfgW bnSqId (bnInit bnCfgW (fun _ => 1))
        ⟨[2, 1], [5, 5], []⟩ ⟨[], [], []⟩ = .ok res ∧
      ∀ b < 2, res.1.data.getD (bnIdx bnCfgW.numFeatures 1 0 b 0) 0 = 0) ∧
    (∃ res, bn2dForward bnCfgW bnSqId (bnInit bnCfgW (fun _ => 1))
        ⟨[1, 1, 1, 2], [5, 5], []⟩ ⟨[], [], []⟩ = .ok res ∧
      ∀ n < 1, ∀ p < 1 * 2,
        res.1.data.getD (bnIdx bnCfgW.numFeatures (1 * 2) 0 n p) 0 = 0) ∧
    (∃ res, bn3dForward bnCfgW bnSqId (bnInit bnCfgW (fun _ => 1))
        ⟨[1, 1, 1, 1, 2], [5, 5], []⟩ ⟨[], [], []⟩ = .ok res ∧
      ∀ n < 1, ∀ p < 1 * 1 * 2,
        res.1.data.getD (bnIdx bnCfgW.numFeatures (1 * 1 * 2) 0 n p) 0 = 0) :=
  ⟨(batchnorm_constant_channel_zero bnCfgW bnSqId (fun _ => 1)
      ⟨[2, 1], [5, 5], []⟩ ⟨[], [], []⟩ 0 5 (by decide)).1 2 rfl (by decide)
      (by decide),
   (batchnorm_constant_channel_zero bnCfgW bnSqId (fun _ => 1)
      ⟨[1, 1, 1, 2], [5, 5], []⟩ ⟨[], [], []⟩ 0 5 (by decide)).2.1 1 1 2 rfl
      (by decide) (by decide) (by decide),
   (batchnorm_constant_channel_zero bnCfgW bnSqId (fun _ => 1)
      ⟨[1, 1, 1, 1, 2], [5, 5], []⟩ ⟨[], [], []⟩ 0 5 (by decide)).2.2 1 1 1 2
      rfl (by decide) (by decide) (by decide)⟩

end TTIE
